import Mathlib

/-!
Verification of the camera punch-tracking engine (`CameraPunchTracker`,
function `computePunches` and its helpers) against its specification.

Modelling conventions:
* JavaScript numbers are modelled as real numbers (`ℝ`); `Math.hypot` keeps
  its square-root definition.
* `undefined` is modelled with `Option`; `x ?? d` becomes `Option.getD`,
  and numeric truthiness tests (`prev[rangeNormKey] ? a : b`) compare
  `getD 0` with `0`.
* The mutable `prevRef.current` record is modelled as an explicit `Prev`
  state; its side-keyed fields (`leftRestExtension` / `rightRestExtension`
  and so on) are grouped into one `SideState` per side.
* React state setters (`setLeftStats`, `setLeftDebug`,
  `setCalibrationStatusSafe`, ...) are modelled as fields of `Engine`
  updated by the step; `setCalibrationStatusSafe` only skips redundant
  writes, which is observationally the identity.
* A thrown JavaScript `TypeError` (reading `.x` of an `undefined` keypoint)
  is modelled by the `error` component of `StepOut`; mutations performed
  before the throw are kept, mutations after it are skipped, exactly as in
  the source where `prevRef` is mutated in place.
* The debug `reasons` strings are modelled by the inductive `Reason`,
  carrying the interpolated numbers where the source formats them into the
  string; the textual rendering itself is presentation only.
* `localStorage` persistence is the external collaborator interface; it is
  modelled by `saveHistory` / `hydrateHistory` below, not threaded through
  the per-frame step.
-/

noncomputable section

structure Pt where
  x : ℝ
  y : ℝ

/-- Source `distance`: `Math.hypot(a.x - b.x, a.y - b.y)`. -/
def distance (a b : Pt) : ℝ :=
  Real.sqrt ((a.x - b.x) ^ 2 + (a.y - b.y) ^ 2)

structure Keypoint where
  x : ℝ
  y : ℝ
  score : Option ℝ

/-- One input frame: the timestamp `performance.now()` supplied to
`computePunches` plus the six keypoints the engine reads from the pose. -/
structure Frame where
  now : ℝ
  ls : Option Keypoint
  rs : Option Keypoint
  lw : Option Keypoint
  rw : Option Keypoint
  le : Option Keypoint
  re : Option Keypoint

inductive Side
  | left
  | right
deriving DecidableEq

structure PunchStats where
  total : ℕ
  lastSpeed : ℝ
  lastPower : ℝ
  lastPercent : ℝ

/-- Debug reason entries.  The source builds strings; constructors carry the
numbers the source interpolates into them. -/
inductive Reason
  | waiting
  | shouldersMissing
  | lowShoulderConfidence
  | handKeypointMissing
  | torsoMoving
  | punchActive
  | rangeTooSmall (rangeNormPct : ℝ)
  | notMovingForward
  | speedTooLow (speed threshold : ℝ)
  | needMoreReach
  | readyToStrike

structure HandDebug where
  completion : ℝ
  speed : ℝ
  speedThreshold : ℝ
  movingForward : Bool
  movingBackward : Bool
  rangeNorm : ℝ
  extensionNorm : ℝ
  triggerNorm : ℝ
  restNorm : ℝ
  reasons : List Reason
  active : Bool

inductive CalibrationStatus
  | waiting
  | collecting
  | complete
deriving DecidableEq

/-- An entry of `potentialPunches`. -/
structure Punch where
  side : Side
  speed : ℝ
  power : ℝ

/-- The two thrown-error kinds the step can produce: the accepted-strike
block's read of an absent wrist (`TypeError`) and the missing-hand branch's
temporal-dead-zone read of `rangeNormKey`/`punchFlagKey`
(`ReferenceError`). -/
inductive JsError
  | typeError
  | referenceError
deriving DecidableEq

/-- The per-side slice of the mutable `prevRef.current` record
(`left`/`leftDistToShoulder`/`leftPunchDetected`/... for the left side and
the mirrored `right*` fields for the right side). -/
structure SideState where
  pos : Option Pt
  distToShoulder : Option ℝ
  punchDetected : Bool
  maxExtension : Option ℝ
  restExtension : Option ℝ
  speedHistory : List ℝ
  rangeNorm : Option ℝ
  filtered : Option Pt
  noiseSpeed : Option ℝ
  cooldownUntil : Option ℝ

structure Prev where
  t : ℝ
  left : SideState
  right : SideState
  calibrated : Bool
  prevLeftShoulder : Option Pt
  prevRightShoulder : Option Pt

def Prev.side (p : Prev) : Side → SideState
  | .left => p.left
  | .right => p.right

structure Engine where
  prev : Prev
  leftStats : PunchStats
  rightStats : PunchStats
  leftDebug : HandDebug
  rightDebug : HandDebug
  calibrationStatus : CalibrationStatus
  leftHistory : List ℝ
  rightHistory : List ℝ

def Engine.statsOf (e : Engine) : Side → PunchStats
  | .left => e.leftStats
  | .right => e.rightStats

def Engine.historyOf (e : Engine) : Side → List ℝ
  | .left => e.leftHistory
  | .right => e.rightHistory

def Engine.debugOf (e : Engine) : Side → HandDebug
  | .left => e.leftDebug
  | .right => e.rightDebug

def HISTORY_SIZE : ℕ := 50

def PERCENTILE : ℝ := 0.9

/-- Source `percentile`: sort ascending, take the entry at index
`Math.min(n-1, Math.max(0, Math.floor(p*(n-1))))`; `0` for empty input. -/
def percentile (arr : List ℝ) (p : ℝ) : ℝ :=
  if arr.length = 0 then 0
  else
    let a := List.insertionSort (· ≤ ·) arr
    let i : ℤ := min ((a.length : ℤ) - 1) (max 0 ⌊p * ((a.length : ℝ) - 1)⌋)
    a.getD i.toNat 0

/-- The baseline used by `computePercent`:
`Math.max(0.001, percentile(hist, 0.9) || Math.max(...hist, power))`. -/
def computePercentBase (power : ℝ) (hist : List ℝ) : ℝ :=
  let q := percentile hist PERCENTILE
  max 0.001 (if q = 0 then hist.foldl max power else q)

/-- Source `computePercent`: `Math.round(power/base*100)` clamped to
`[0, 150]`. -/
def computePercent (power : ℝ) (hist : List ℝ) : ℝ :=
  let base := computePercentBase power hist
  let pct : ℝ := ((round (power / base * 100) : ℤ) : ℝ)
  max 0 (min 150 pct)

/-- `wrist && (wrist.score ?? 0) >= minWristScore` with
`minWristScore = 0.05`. -/
def wristUsable : Option Keypoint → Bool
  | some w => if (0.05 : ℝ) ≤ w.score.getD 0 then true else false
  | none => false

/-- Hand resolution (source lines around `let hand = ...`): prefer the
wrist, fall back to the elbow, finally fall back to the previous frame's
stored hand position with confidence `0`. -/
def resolveHand (wrist elbow : Option Keypoint) (prevPos : Option Pt) :
    Option Keypoint :=
  let hand0 := if wristUsable wrist then wrist else elbow
  match hand0 with
  | some h => some h
  | none =>
    match prevPos with
    | some p => some ⟨p.x, p.y, some 0⟩
    | none => none

structure SideOutcome where
  state : SideState
  debug : HandDebug
  statsUpd : Option (ℝ × ℝ)
  proposal : Option Punch

/-- Rest-extension update: nudge toward the current distance when not
moving forward, below the noise-scaled speed floor, or retracted below the
current rest; learning rate 0.6 when retracting below rest, else 0.03. -/
def restUpdate (movingForward : Bool) (speedFwd noise distToShoulder rest0 : ℝ) : ℝ :=
  if movingForward = false ∨ speedFwd < max 0.15 (noise * 1.2) ∨ distToShoulder < rest0 then
    rest0 + (distToShoulder - rest0) * (if distToShoulder < rest0 then 0.6 else 0.03)
  else rest0

/-- Max-extension update: grow at rate 0.3 when moving forward beyond the
current max, decay at 0.02 when not moving forward, then clamp to
`rest + norm * 0.04`. -/
def maxExtUpdate (movingForward : Bool) (distToShoulder maxExt0 rest1 norm : ℝ) : ℝ :=
  let maxExt1 :=
    if movingForward = true ∧ maxExt0 < distToShoulder then
      maxExt0 + (distToShoulder - maxExt0) * 0.3
    else maxExt0
  let maxExt2 :=
    if movingForward = false then maxExt1 - (maxExt1 - distToShoulder) * 0.02 else maxExt1
  max maxExt2 (rest1 + norm * 0.04)

/-- `triggerGain`: looser while the observed range is still small. -/
def triggerGainOf (rangeNorm : ℝ) : ℝ :=
  if rangeNorm < 0.06 then 0.5 else if rangeNorm < 0.1 then 0.6 else 0.65

/-- The dynamic-learning tail of the per-side loop body (everything after
the torso-stability gate): noise estimate, rest/max extension updates,
strike entry/exit, diagnostics.  The kinematic quantities (`cur`,
`distToShoulder`, `speed`, `speedFwd`, `movingForward`, `movingBackward`,
seeded `rest0`/`maxExt0`) are computed by `processSide` and passed in;
`st` already carries the updated `filtered` and `speedHistory`. -/
def mainSide (now norm : ℝ) (side : Side) (cur : Pt)
    (distToShoulder speed speedFwd : ℝ) (movingForward movingBackward : Bool)
    (rest0 maxExt0 : ℝ) (st : SideState) : SideOutcome :=
  let noisePrev := st.noiseSpeed.getD 0.05
  let noise := noisePrev * 0.9 + speed * 0.1
  let st : SideState := { st with noiseSpeed := some noise }
  let rest1 := restUpdate movingForward speedFwd noise distToShoulder rest0
  let st : SideState := { st with restExtension := some rest1 }
  let maxExt3 := maxExtUpdate movingForward distToShoulder maxExt0 rest1 norm
  let st : SideState := { st with maxExtension := some maxExt3 }
  let extensionRangeRaw := max 0 (maxExt3 - rest1)
  let extensionRange := max extensionRangeRaw (norm * 0.02)
  let st : SideState := { st with rangeNorm := some (extensionRange / norm) }
  let punchActive := st.punchDetected
  let speedThreshold := max 0.6 (0.5 + extensionRange / norm * 1.2)
  let rangeNorm := extensionRange / norm
  let triggerDist := rest1 + extensionRange * triggerGainOf rangeNorm
  let resetDist := rest1 + extensionRange * 0.25
  let currentPower := speedFwd * max 0.4 (min 1.6 (distToShoulder / norm))
  let fire : Prop := punchActive = false ∧ ¬(now < st.cooldownUntil.getD 0) ∧
    norm * 0.06 ≤ extensionRange ∧ movingForward = true ∧
    speedThreshold ≤ speedFwd ∧ triggerDist ≤ distToShoulder
  let proposal : Option Punch := if fire then some ⟨side, speedFwd, currentPower⟩ else none
  let st : SideState := if fire then { st with punchDetected := true, cooldownUntil := some (now + 250) } else st
  let st : SideState := if punchActive = true ∧ (movingBackward = true ∨ distToShoulder ≤ resetDist) then
    { st with punchDetected := false } else st
  let st : SideState := { st with pos := some cur, distToShoulder := some distToShoulder }
  let triggerDelta := triggerDist - rest1
  let completion0 :=
    if (1e-4 : ℝ) < triggerDelta then max 0 (min 1 ((distToShoulder - rest1) / triggerDelta))
    else 0
  let completion := if movingForward = false ∧ speedFwd < 0.1 then 0 else completion0
  let reasons0 : List Reason :=
    if punchActive = true then [.punchActive]
    else
      (if extensionRange < norm * 0.06 then [Reason.rangeTooSmall (extensionRange / norm * 100)] else []) ++
      (if movingForward = false then [Reason.notMovingForward] else []) ++
      (if speedFwd < speedThreshold then [Reason.speedTooLow speedFwd speedThreshold] else []) ++
      (if distToShoulder < triggerDist then [Reason.needMoreReach] else [])
  let reasons := if reasons0.length = 0 then [Reason.readyToStrike] else reasons0
  let dbg : HandDebug :=
    { completion := completion
      speed := speedFwd
      speedThreshold := speedThreshold
      movingForward := movingForward
      movingBackward := movingBackward
      rangeNorm := extensionRange / norm
      extensionNorm := distToShoulder / norm
      triggerNorm := triggerDist / norm
      restNorm := rest1 / norm
      reasons := reasons
      active := punchActive }
  { state := st
    debug := dbg
    statsUpd := some (speedFwd, currentPower)
    proposal := proposal }

set_option maxHeartbeats 1600000 in
/-- The body of the per-side loop of `computePunches` for one side.
`st` is that side's slice of `prev`; `now`, `dt`, `norm` and `torsoStable`
are the shared per-frame values computed before the loop. -/
def processSide (now dt norm : ℝ) (torsoStable : Bool) (side : Side)
    (wrist elbow : Option Keypoint) (shoulder : Keypoint)
    (st : SideState) : Except JsError SideOutcome :=
  let prevWrist := st.pos
  let prevDist := st.distToShoulder
  match resolveHand wrist elbow prevWrist with
  | none =>
    -- The source's "hand keypoint missing" branch builds its debug object
    -- from `prev[rangeNormKey]` and `prev[punchFlagKey]`, but both consts
    -- are declared only further down in the same loop-body scope, so this
    -- read is a temporal-dead-zone access: the branch throws a
    -- `ReferenceError` before publishing the debug value or touching any
    -- stored state.
    Except.error JsError.referenceError
  | some hand =>
    let curRaw : Pt := ⟨hand.x, hand.y⟩
    let prevFiltered : Pt := st.filtered.getD
      (match prevWrist with
       | some p => ⟨p.x, p.y⟩
       | none => curRaw)
    let smAlpha : ℝ := 0.6
    let cur : Pt := ⟨prevFiltered.x * smAlpha + curRaw.x * (1 - smAlpha),
                     prevFiltered.y * smAlpha + curRaw.y * (1 - smAlpha)⟩
    let st : SideState := { st with filtered := some cur }
    let distToShoulder := distance cur ⟨shoulder.x, shoulder.y⟩
    let rest0 := st.restExtension.getD distToShoulder
    let maxExt0 := st.maxExtension.getD distToShoulder
    let travel := distance cur prevFiltered
    let outward : Pt := ⟨cur.x - shoulder.x, cur.y - shoulder.y⟩
    let outwardLen0 := Real.sqrt (outward.x ^ 2 + outward.y ^ 2)
    let outwardLen := if outwardLen0 = 0 then 1 else outwardLen0
    let dirX := outward.x / outwardLen
    let dirY := outward.y / outwardLen
    let stepX := cur.x - prevFiltered.x
    let stepY := cur.y - prevFiltered.y
    let proj := stepX * dirX + stepY * dirY
    let speed := travel / norm / dt
    let speedFwd := max 0 proj / norm / dt
    let speedHistory0 := st.speedHistory ++ [speed]
    let speedHistory := if 5 < speedHistory0.length then speedHistory0.tail else speedHistory0
    let st : SideState := { st with speedHistory := speedHistory }
    let deltaDist :=
      match prevDist with
      | some pd => distToShoulder - pd
      | none => 0
    let forwardGate := max (norm * 0.003) ((maxExt0 - rest0) * 0.03)
    let movingForward : Bool :=
      if (if st.rangeNorm.getD 0 ≠ 0 then (0.3 : ℝ) else 0.15) < speedFwd ∧ forwardGate < deltaDist
      then true else false
    let movingBackward : Bool :=
      if deltaDist < -forwardGate ∧ speedFwd < 0.2 then true else false
    if torsoStable = false then
      -- unstable torso/camera: skip all dynamic updates for this frame
      let dbg : HandDebug :=
        { completion := 0
          speed := speedFwd
          speedThreshold := 0.6
          movingForward := false
          movingBackward := false
          rangeNorm := st.rangeNorm.getD 0
          extensionNorm := distToShoulder / norm
          triggerNorm := 0
          restNorm := rest0 / norm
          reasons := [.torsoMoving]
          active := st.punchDetected }
      Except.ok
        { state := { st with pos := some cur, distToShoulder := some distToShoulder }
          debug := dbg
          statsUpd := none
          proposal := none }
    else
      Except.ok (mainSide now norm side cur distToShoulder speed speedFwd
        movingForward movingBackward rest0 maxExt0 st)

/-- The debug snapshot published for both sides on the two early-return
paths (shoulders missing / low shoulder confidence). -/
def shouldersDbg (r : Reason) : HandDebug :=
  { completion := 0
    speed := 0
    speedThreshold := 0
    movingForward := false
    movingBackward := false
    rangeNorm := 0
    extensionNorm := 0
    triggerNorm := 0
    restNorm := 0
    reasons := [r]
    active := false }


/-- The strike arbitration (`punches = length === 1 ? potentialPunches :
[potentialPunches.reduce(...)]`), applied to the possibly empty list. -/
def arbitrate : List Punch → List Punch
  | [] => []
  | [p] => [p]
  | p :: rest => [rest.foldl (fun best cur => if best.power < cur.power then cur else best) p]

/-- The raw keypoints the accepted-strike block reads
(`lw`/`rw`/`ls`/`rs`). -/
structure AcceptCtx where
  lw : Option Keypoint
  rw : Option Keypoint
  ls : Keypoint
  rs : Keypoint

/-- Body of the accepted-strike loop for one punch.  The source immediately
evaluates `distance({x: lw.x, y: lw.y}, ...)` (resp. `rw`); when that wrist
keypoint is `undefined` this is a thrown `TypeError`, modelled as the
`some .typeError` result with the remaining effects skipped. -/
def applyPunch (ctx : AcceptCtx) (p : Punch) (e : Engine) : Engine × Option JsError :=
  let w := match p.side with
    | .left => ctx.lw
    | .right => ctx.rw
  let sh := match p.side with
    | .left => ctx.ls
    | .right => ctx.rs
  match w with
  | none => (e, some .typeError)
  | some wk =>
    let distToShoulder := distance ⟨wk.x, wk.y⟩ ⟨sh.x, sh.y⟩
    match p.side with
    | .left =>
      let hist0 := e.leftHistory ++ [p.power]
      let hist := if HISTORY_SIZE < hist0.length then hist0.tail else hist0
      let pct := computePercent p.power hist
      ({ e with
          leftHistory := hist
          leftStats := { total := e.leftStats.total + 1, lastSpeed := p.speed,
                         lastPower := p.power, lastPercent := pct }
          prev := { e.prev with left := { e.prev.left with
            maxExtension := some (max (e.prev.left.maxExtension.getD 0) distToShoulder) } } },
        none)
    | .right =>
      let hist0 := e.rightHistory ++ [p.power]
      let hist := if HISTORY_SIZE < hist0.length then hist0.tail else hist0
      let pct := computePercent p.power hist
      ({ e with
          rightHistory := hist
          rightStats := { total := e.rightStats.total + 1, lastSpeed := p.speed,
                          lastPower := p.power, lastPercent := pct }
          prev := { e.prev with right := { e.prev.right with
            maxExtension := some (max (e.prev.right.maxExtension.getD 0) distToShoulder) } } },
        none)

/-- The `for (const punch of punches)` loop; a thrown error aborts the rest
of the loop (and, in `computePunches`, the trailing `prev.t = now`). -/
def applyPunches (ctx : AcceptCtx) : List Punch → Engine → Engine × Option JsError
  | [], e => (e, none)
  | p :: rest, e =>
    match applyPunch ctx p e with
    | (e', none) => applyPunches ctx rest e'
    | (e', some err) => (e', some err)

/-- Observable result of one `computePunches` call: the updated state plus,
for specification purposes, the `potentialPunches` list collected from the
two sides and the arbitrated `punches` list actually folded into the
stats/history. -/
structure StepOut where
  engine : Engine
  error : Option JsError
  potentialPunches : List Punch
  accepted : List Punch

/-- The per-frame `setLeftStats`/`setRightStats` update of
`lastSpeed`/`lastPower` (total and percent untouched). -/
def statsWith (ps : PunchStats) : Option (ℝ × ℝ) → PunchStats
  | some sp => { ps with lastSpeed := sp.1, lastPower := sp.2 }
  | none => ps

/-- Step finalization: on normal completion `prev.t = now` runs; a thrown
error skips it (and everything after the throw). -/
def finishStep (now : ℝ) (pp acc : List Punch) : Engine × Option JsError → StepOut
  | (e2, none) =>
    { engine := { e2 with prev := { e2.prev with t := now } }
      error := none, potentialPunches := pp, accepted := acc }
  | (e2, some err) =>
    { engine := e2
      error := some err, potentialPunches := pp, accepted := acc }

/-- `norm = max(shoulderSpan, 1)` from the two shoulder keypoints. -/
def normOf (ls rs : Keypoint) : ℝ :=
  max (distance ⟨ls.x, ls.y⟩ ⟨rs.x, rs.y⟩) 1

/-- `norm` of a frame (1 when a shoulder is absent, in which case the step
returns before using it). -/
def frameNorm (f : Frame) : ℝ :=
  match f.ls, f.rs with
  | some a, some b => normOf a b
  | _, _ => 1

/-- Average per-frame shoulder displacement normalized by `2 * norm`. -/
def shMoveOf (e : Engine) (ls rs : Keypoint) : ℝ :=
  (distance ⟨ls.x, ls.y⟩ (e.prev.prevLeftShoulder.getD ⟨ls.x, ls.y⟩) +
    distance ⟨rs.x, rs.y⟩ (e.prev.prevRightShoulder.getD ⟨rs.x, rs.y⟩)) / (2 * normOf ls rs)

/-- `torsoStable = shMove < 0.08`. -/
def torsoStableOf (e : Engine) (ls rs : Keypoint) : Bool :=
  if shMoveOf e ls rs < 0.08 then true else false

/-- `dt = max((now - (prev.t || now)) / 1000, 1/120)` (`prev.t` is falsy on
the very first frame, when it is still `0`). -/
def frameDt (t0 now : ℝ) : ℝ :=
  max ((now - (if t0 = 0 then now else t0)) / 1000) (1 / 120)

/-- The engine after the per-side loop and the calibration update, before
strike acceptance: new side states, per-frame stats, new status. -/
def engineAfterSides (o1 o2 : SideOutcome) (e : Engine) : Engine :=
  let prev : Prev := { e.prev with left := o1.state, right := o2.state }
  let leftRange := prev.left.rangeNorm.getD 0
  let rightRange := prev.right.rangeNorm.getD 0
  let status : CalibrationStatus :=
    if prev.calibrated = false then
      if 0.18 < leftRange ∨ 0.18 < rightRange then .complete
      else if 0.08 < leftRange ∨ 0.08 < rightRange then .collecting else .waiting
    else e.calibrationStatus
  let prev : Prev :=
    if prev.calibrated = false ∧ (0.18 < leftRange ∨ 0.18 < rightRange) then
      { prev with calibrated := true }
    else prev
  { prev := prev
    leftStats := statsWith e.leftStats o1.statsUpd
    rightStats := statsWith e.rightStats o2.statsUpd
    leftDebug := o1.debug
    rightDebug := o2.debug
    calibrationStatus := status
    leftHistory := e.leftHistory
    rightHistory := e.rightHistory }

/-- The engine after only the left loop iteration has completed: its state
slice, debug snapshot and per-frame stats are already written.  Used when
the right iteration throws, aborting the frame before the calibration and
acceptance stages. -/
def engineAfterLeft (o1 : SideOutcome) (e : Engine) : Engine :=
  { e with
      prev := { e.prev with left := o1.state }
      leftStats := statsWith e.leftStats o1.statsUpd
      leftDebug := o1.debug }

/-- The body of `computePunches` after the shoulder guards: both per-side
loop iterations, the per-frame stats updates, the calibration update, and
the strike arbitration/acceptance.  `e` already carries the updated
`prevLeftShoulder`/`prevRightShoulder`.  A side iteration that throws
aborts the frame there: effects of completed iterations are kept, the
calibration block, the acceptance loop and `prev.t = now` never run, and
the frame surfaces no proposal or accepted lists (the locals die with the
aborted call). -/
def mainBody (now dt norm : ℝ) (torsoStable : Bool)
    (lw lel rw rel : Option Keypoint) (ls rs : Keypoint) (e : Engine) : StepOut :=
  match processSide now dt norm torsoStable .left lw lel ls e.prev.left with
  | .error err =>
    { engine := e, error := some err, potentialPunches := [], accepted := [] }
  | .ok o1 =>
    match processSide now dt norm torsoStable .right rw rel rs e.prev.right with
    | .error err =>
      { engine := engineAfterLeft o1 e, error := some err
        potentialPunches := [], accepted := [] }
    | .ok o2 =>
      let potentialPunches := o1.proposal.toList ++ o2.proposal.toList
      let accepted := arbitrate potentialPunches
      finishStep now potentialPunches accepted
        (applyPunches ⟨lw, rw, ls, rs⟩ accepted (engineAfterSides o1 o2 e))

set_option maxHeartbeats 1600000 in
/-- The per-frame step `computePunches(pose)` (with `now = performance.now()`
passed explicitly). -/
def computePunches (e : Engine) (f : Frame) : StepOut :=
  let now := f.now
  match f.ls, f.rs with
  | none, _ =>
    { engine := { e with
        leftDebug := shouldersDbg .shouldersMissing
        rightDebug := shouldersDbg .shouldersMissing
        prev := { e.prev with t := now } }
      error := none, potentialPunches := [], accepted := [] }
  | some _, none =>
    { engine := { e with
        leftDebug := shouldersDbg .shouldersMissing
        rightDebug := shouldersDbg .shouldersMissing
        prev := { e.prev with t := now } }
      error := none, potentialPunches := [], accepted := [] }
  | some ls, some rs =>
    if ls.score.getD 0 < 0.15 ∨ rs.score.getD 0 < 0.15 then
      { engine := { e with
          leftDebug := shouldersDbg .lowShoulderConfidence
          rightDebug := shouldersDbg .lowShoulderConfidence
          prev := { e.prev with t := now } }
        error := none, potentialPunches := [], accepted := [] }
    else
      let prev : Prev := { e.prev with
        prevLeftShoulder := some ⟨ls.x, ls.y⟩
        prevRightShoulder := some ⟨rs.x, rs.y⟩ }
      mainBody now (frameDt e.prev.t now) (normOf ls rs) (torsoStableOf e ls rs)
        f.lw f.le f.rw f.re ls rs { e with prev := prev }

/-- Fold a frame sequence through the step (crashes keep the partially
updated state, as the source's animation loop keeps running). -/
def runFrames (e : Engine) : List Frame → Engine
  | [] => e
  | f :: rest => runFrames (computePunches e f).engine rest

def initialSideState : SideState :=
  { pos := none
    distToShoulder := none
    punchDetected := false
    maxExtension := none
    restExtension := none
    speedHistory := []
    rangeNorm := none
    filtered := none
    noiseSpeed := none
    cooldownUntil := none }

/-- Debug value both sides start with (`emptyDebug`). -/
def emptyDebug : HandDebug :=
  { completion := 0
    speed := 0
    speedThreshold := 0
    movingForward := false
    movingBackward := false
    rangeNorm := 0
    extensionNorm := 0
    triggerNorm := 0
    restNorm := 0
    reasons := [.waiting]
    active := false }

/-- Engine state at mount: empty `prevRef` (`{ t: 0 }`), zeroed stats,
`waiting` calibration, empty histories. -/
def engInit : Engine :=
  { prev :=
      { t := 0
        left := initialSideState
        right := initialSideState
        calibrated := false
        prevLeftShoulder := none
        prevRightShoulder := none }
    leftStats := ⟨0, 0, 0, 0⟩
    rightStats := ⟨0, 0, 0, 0⟩
    leftDebug := emptyDebug
    rightDebug := emptyDebug
    calibrationStatus := .waiting
    leftHistory := []
    rightHistory := [] }

/-- The record `saveHistory` writes: `{ t: Date.now(), left, right }`. -/
structure HistoryRecord where
  t : ℝ
  left : List ℝ
  right : List ℝ

def saveHistory (now : ℝ) (leftHist rightHist : List ℝ) : HistoryRecord :=
  ⟨now, leftHist, rightHist⟩

/-- `Array.prototype.slice(-n)`: the last `n` entries. -/
def sliceLast (n : ℕ) (l : List ℝ) : List ℝ :=
  l.drop (l.length - n)

/-- Startup hydration of the two history buffers from the persisted record:
accepted iff strictly younger than 30 minutes, each side truncated with
`slice(-HISTORY_SIZE)`; otherwise both buffers stay empty. -/
def hydrateHistory (raw : Option HistoryRecord) (now : ℝ) : List ℝ × List ℝ :=
  match raw with
  | none => ([], [])
  | some r =>
    if now - r.t < 30 * 60 * 1000 then
      (sliceLast HISTORY_SIZE r.left, sliceLast HISTORY_SIZE r.right)
    else ([], [])

/-- The baseline index formula exactly as the specification words it:
nearest-rank with `round(p*(n-1))` (the source uses `Math.floor`). -/
def percentileClaim (arr : List ℝ) (p : ℝ) : ℝ :=
  if arr.length = 0 then 0
  else
    let a := List.insertionSort (· ≤ ·) arr
    let i : ℤ := min ((a.length : ℤ) - 1) (max 0 (round (p * ((a.length : ℝ) - 1))))
    a.getD i.toNat 0

/-! ### Concrete inputs for evaluation

All concrete keypoints below sit on the line `y = 0`, so every distance and
hypot in their processing is `|Δx|`; `distance_sameY` and the square-root
facts below let the simplifier evaluate the step exactly. -/

/-- A visible keypoint at `(x, 0)` with confidence 1. -/
def kpAt (x : ℝ) : Option Keypoint := some ⟨x, 0, some 1⟩

/-- C1 run, frame 1: both wrists at rest (left hand at 10, right at 130). -/
def fC1a : Frame := ⟨1000, kpAt 0, kpAt 100, kpAt 10, kpAt 130, none, none⟩

/-- C1 run, frame 2: right wrist extends fast but under the strike speed
threshold; the learned right range norm becomes `0.121 > 0.08`. -/
def fC1b : Frame := ⟨2000, kpAt 0, kpAt 100, kpAt 10, kpAt 207.5, none, none⟩

/-- C1 run, frame 3: left shoulder drifts out (span 119, still stable),
hands held; right range norm `≈ 0.097`, still collecting. -/
def fC1c : Frame := ⟨3000, kpAt (-19), kpAt 100, kpAt 10, kpAt 161, none, none⟩

/-- C1 run, frame 4: left shoulder drifts further (span 141, still stable);
right range norm drops to `≈ 0.078 ≤ 0.08` and the status reverts. -/
def fC1d : Frame := ⟨4000, kpAt (-41), kpAt 100, kpAt 10, kpAt 161, none, none⟩

/-- C6 run, frame 2: the left shoulder jumps to `-200` (span 300), making
the frame unstable, so the extension values are left untouched while the
frame's `norm` tripled. -/
def fC6b : Frame := ⟨2000, kpAt (-200), kpAt 100, kpAt 10, kpAt 207.5, none, none⟩

/-- C2 run, frame 1: the right wrist is absent the whole run; the right
elbow stands in as the hand. -/
def fC2a : Frame := ⟨1000, kpAt 0, kpAt 100, kpAt 10, none, none, kpAt 130⟩

/-- C2 run, frame 2: the right elbow performs a qualifying strike while the
right wrist is still absent; the accepted-strike block then reads `rw.x`. -/
def fC2b : Frame := ⟨2000, kpAt 0, kpAt 100, kpAt 10, none, none, kpAt 355⟩

/-- Frame with both shoulders visible and no other keypoint (and no stored
hand position to fall back to). -/
def fNoHand : Frame := ⟨1000, kpAt 0, kpAt 100, none, none, none, none⟩

/-- Frame with no keypoints at all. -/
def fEmpty : Frame := ⟨500, none, none, none, none, none, none⟩

/-- A warmed-up side state at distance 30 from its shoulder, as produced by
a settling frame: used (mirrored at `x = -30` and `x = 130`) by the
both-sides-propose witness state `engBoth`. -/
def sideAt (x : ℝ) : SideState :=
  { pos := some ⟨x, 0⟩
    distToShoulder := some 30
    punchDetected := false
    maxExtension := some 34
    restExtension := some 30
    speedHistory := [0]
    rangeNorm := some 0.04
    filtered := some ⟨x, 0⟩
    noiseSpeed := some 0.045
    cooldownUntil := none }

/-- Engine state from which both limbs fire in the same frame. -/
def engBoth : Engine :=
  { prev :=
      { t := 1000
        left := sideAt (-30)
        right := sideAt 130
        calibrated := false
        prevLeftShoulder := some ⟨0, 0⟩
        prevRightShoulder := some ⟨100, 0⟩ }
    leftStats := ⟨0, 0, 0, 0⟩
    rightStats := ⟨0, 0, 0, 0⟩
    leftDebug := emptyDebug
    rightDebug := emptyDebug
    calibrationStatus := .waiting
    leftHistory := []
    rightHistory := [] }

/-- Frame in which both limbs satisfy every strike-entry condition: the
left proposal has power `1.08`, the right proposal has power `1.3`. -/
def fBoth : Frame := ⟨2000, kpAt 0, kpAt 100, kpAt (-255), kpAt 380, none, none⟩

/-- An engine that has completed calibration. -/
def engCal : Engine := { engInit with prev := { engInit.prev with calibrated := true } }

/-! ### Structural and evaluation lemmas -/

theorem distance_sameY (a b c : ℝ) : distance ⟨a, c⟩ ⟨b, c⟩ = |a - b| := by
  simp [distance, Real.sqrt_sq_eq_abs]

theorem sqrtLit100 : Real.sqrt ((100 : ℝ)) = 10 := by
  rw [show (100 : ℝ) = 10 ^ 2 by norm_num, Real.sqrt_sq (by norm_num)]

theorem sqrtLit900 : Real.sqrt ((900 : ℝ)) = 30 := by
  rw [show (900 : ℝ) = 30 ^ 2 by norm_num, Real.sqrt_sq (by norm_num)]

theorem sqrtLit841 : Real.sqrt ((841 : ℝ)) = 29 := by
  rw [show (841 : ℝ) = 29 ^ 2 by norm_num, Real.sqrt_sq (by norm_num)]

theorem sqrtLit2601 : Real.sqrt ((2601 : ℝ)) = 51 := by
  rw [show (2601 : ℝ) = 51 ^ 2 by norm_num, Real.sqrt_sq (by norm_num)]

theorem sqrtLit3721 : Real.sqrt ((3721 : ℝ)) = 61 := by
  rw [show (3721 : ℝ) = 61 ^ 2 by norm_num, Real.sqrt_sq (by norm_num)]

theorem sqrtLit14400 : Real.sqrt ((14400 : ℝ)) = 120 := by
  rw [show (14400 : ℝ) = 120 ^ 2 by norm_num, Real.sqrt_sq (by norm_num)]

theorem sqrtLit16900 : Real.sqrt ((16900 : ℝ)) = 130 := by
  rw [show (16900 : ℝ) = 130 ^ 2 by norm_num, Real.sqrt_sq (by norm_num)]


/-! ### Structural lemmas about the per-side state machine -/

theorem le_maxExtUpdate (mf : Bool) (d m0 r1 norm : ℝ) :
    r1 + norm * 0.04 ≤ maxExtUpdate mf d m0 r1 norm :=
  le_max_right _ _

theorem mainSide_prop_none_of_cooldown (now norm : ℝ) (side : Side) (cur : Pt)
    (d sp sf : ℝ) (mf mb : Bool) (r0 m0 : ℝ) (st : SideState)
    (h : now < st.cooldownUntil.getD 0) :
    (mainSide now norm side cur d sp sf mf mb r0 m0 st).proposal = none := by
  simp [mainSide, h]

theorem mainSide_prop_none_of_active (now norm : ℝ) (side : Side) (cur : Pt)
    (d sp sf : ℝ) (mf mb : Bool) (r0 m0 : ℝ) (st : SideState)
    (h : st.punchDetected = true) :
    (mainSide now norm side cur d sp sf mf mb r0 m0 st).proposal = none := by
  simp [mainSide, h]

theorem mainSide_ext (now norm : ℝ) (side : Side) (cur : Pt)
    (d sp sf : ℝ) (mf mb : Bool) (r0 m0 : ℝ) (st : SideState) :
    (mainSide now norm side cur d sp sf mf mb r0 m0 st).state.maxExtension =
      some (maxExtUpdate mf d m0 (restUpdate mf sf (st.noiseSpeed.getD 0.05 * 0.9 + sp * 0.1) d r0) norm) ∧
    (mainSide now norm side cur d sp sf mf mb r0 m0 st).state.restExtension =
      some (restUpdate mf sf (st.noiseSpeed.getD 0.05 * 0.9 + sp * 0.1) d r0) := by
  simp only [mainSide]
  split_ifs <;> exact ⟨rfl, rfl⟩

theorem mainSide_fire_effects (now norm : ℝ) (side : Side) (cur : Pt)
    (d sp sf : ℝ) (mf mb : Bool) (r0 m0 : ℝ) (st : SideState) (p : Punch)
    (h : (mainSide now norm side cur d sp sf mf mb r0 m0 st).proposal = some p) :
    p.side = side ∧
    (mainSide now norm side cur d sp sf mf mb r0 m0 st).state.cooldownUntil = some (now + 250) ∧
    (mainSide now norm side cur d sp sf mf mb r0 m0 st).state.punchDetected = true ∧
    (mainSide now norm side cur d sp sf mf mb r0 m0 st).state.maxExtension =
      some (maxExtUpdate mf d m0 (restUpdate mf sf (st.noiseSpeed.getD 0.05 * 0.9 + sp * 0.1) d r0) norm) ∧
    (mainSide now norm side cur d sp sf mf mb r0 m0 st).state.restExtension =
      some (restUpdate mf sf (st.noiseSpeed.getD 0.05 * 0.9 + sp * 0.1) d r0) := by
  simp only [mainSide] at h ⊢
  split_ifs at h ⊢ with h1 h2 <;>
    first
      | exact absurd h2.1 (by simp [h1.1])
      | exact absurd h1.1 (by simp [h2.1])
      | (rw [Option.some.injEq] at h; subst h; exact ⟨rfl, rfl, rfl, rfl, rfl⟩)
      | exact absurd h (by simp)

theorem processSide_prop_none_of_cooldown (now dt norm : ℝ) (ts : Bool) (side : Side)
    (w eb : Option Keypoint) (sh : Keypoint) (st : SideState) (o : SideOutcome)
    (ho : processSide now dt norm ts side w eb sh st = Except.ok o)
    (h : now < st.cooldownUntil.getD 0) :
    o.proposal = none := by
  cases hr : resolveHand w eb st.pos with
  | none => simp [processSide, hr] at ho
  | some hand =>
    cases ts with
    | false =>
      simp [processSide, hr] at ho
      subst ho
      rfl
    | true =>
      simp [processSide, hr] at ho
      subst ho
      exact mainSide_prop_none_of_cooldown _ _ _ _ _ _ _ _ _ _ _ _ h

theorem processSide_prop_none_of_active (now dt norm : ℝ) (ts : Bool) (side : Side)
    (w eb : Option Keypoint) (sh : Keypoint) (st : SideState) (o : SideOutcome)
    (ho : processSide now dt norm ts side w eb sh st = Except.ok o)
    (h : st.punchDetected = true) :
    o.proposal = none := by
  cases hr : resolveHand w eb st.pos with
  | none => simp [processSide, hr] at ho
  | some hand =>
    cases ts with
    | false =>
      simp [processSide, hr] at ho
      subst ho
      rfl
    | true =>
      simp [processSide, hr] at ho
      subst ho
      exact mainSide_prop_none_of_active _ _ _ _ _ _ _ _ _ _ _ _ h

theorem processSide_fire_effects (now dt norm : ℝ) (ts : Bool) (side : Side)
    (w eb : Option Keypoint) (sh : Keypoint) (st : SideState) (o : SideOutcome) (p : Punch)
    (ho : processSide now dt norm ts side w eb sh st = Except.ok o)
    (h : o.proposal = some p) :
    p.side = side ∧
    o.state.cooldownUntil = some (now + 250) ∧
    o.state.punchDetected = true ∧
    ∃ m r, o.state.maxExtension = some m ∧
      o.state.restExtension = some r ∧
      r + norm * 0.04 ≤ m := by
  cases hr : resolveHand w eb st.pos with
  | none => simp [processSide, hr] at ho
  | some hand =>
    cases ts with
    | false =>
      simp [processSide, hr] at ho
      subst ho
      simp at h
    | true =>
      simp [processSide, hr] at ho
      subst ho
      obtain ⟨h1, h2, h3, h4, h5⟩ := mainSide_fire_effects _ _ _ _ _ _ _ _ _ _ _ _ _ h
      exact ⟨h1, h2, h3, _, _, h4, h5, le_maxExtUpdate _ _ _ _ _⟩

theorem processSide_ext (now dt norm : ℝ) (ts : Bool) (side : Side)
    (w eb : Option Keypoint) (sh : Keypoint) (st : SideState) (o : SideOutcome)
    (ho : processSide now dt norm ts side w eb sh st = Except.ok o) :
    (o.state.maxExtension = st.maxExtension ∧
      o.state.restExtension = st.restExtension) ∨
    ∃ m r, o.state.maxExtension = some m ∧
      o.state.restExtension = some r ∧
      r + norm * 0.04 ≤ m := by
  cases hr : resolveHand w eb st.pos with
  | none => simp [processSide, hr] at ho
  | some hand =>
    cases ts with
    | false =>
      left
      simp [processSide, hr] at ho
      subst ho
      exact ⟨rfl, rfl⟩
    | true =>
      right
      simp only [processSide, hr] at ho
      rw [if_neg (by simp : ¬(true = false))] at ho
      injection ho with ho
      subst ho
      obtain ⟨hm, hrr⟩ := mainSide_ext now norm side _ _ _ _ _ _ _ _ _
      exact ⟨_, _, hm, hrr, le_maxExtUpdate _ _ _ _ _⟩

/-! ### Accept-phase and arbitration lemmas -/

theorem applyPunch_preserve (ctx : AcceptCtx) (p : Punch) (e : Engine) (s : Side) :
    ((applyPunch ctx p e).1.prev.side s).cooldownUntil = (e.prev.side s).cooldownUntil ∧
    ((applyPunch ctx p e).1.prev.side s).punchDetected = (e.prev.side s).punchDetected ∧
    ((applyPunch ctx p e).1.prev.side s).restExtension = (e.prev.side s).restExtension ∧
    ((applyPunch ctx p e).1.prev.side s).pos = (e.prev.side s).pos ∧
    ((applyPunch ctx p e).1.prev.side s).distToShoulder = (e.prev.side s).distToShoulder ∧
    (applyPunch ctx p e).1.prev.calibrated = e.prev.calibrated ∧
    (applyPunch ctx p e).1.calibrationStatus = e.calibrationStatus ∧
    (applyPunch ctx p e).1.debugOf s = e.debugOf s := by
  rcases ctx with ⟨clw, crw, cls, crs⟩
  rcases p with ⟨ps, psp, ppw⟩
  cases ps <;> cases s <;> cases clw <;> cases crw <;>
    simp [applyPunch, Prev.side, Engine.debugOf]

theorem applyPunch_maxExt_mono (ctx : AcceptCtx) (p : Punch) (e : Engine) (s : Side) :
    ((applyPunch ctx p e).1.prev.side s).maxExtension = (e.prev.side s).maxExtension ∨
    ∃ d, ((applyPunch ctx p e).1.prev.side s).maxExtension =
      some (max ((e.prev.side s).maxExtension.getD 0) d) := by
  rcases ctx with ⟨clw, crw, cls, crs⟩
  rcases p with ⟨ps, psp, ppw⟩
  cases ps <;> cases s <;> cases clw <;> cases crw <;>
    first
      | exact Or.inl rfl
      | exact Or.inr ⟨_, rfl⟩

theorem applyPunch_other_side (ctx : AcceptCtx) (p : Punch) (e : Engine) (s : Side)
    (hs : s ≠ p.side) :
    (applyPunch ctx p e).1.prev.side s = e.prev.side s ∧
    (applyPunch ctx p e).1.statsOf s = e.statsOf s := by
  rcases ctx with ⟨clw, crw, cls, crs⟩
  rcases p with ⟨ps, psp, ppw⟩
  cases ps <;> cases s <;> simp at hs <;> cases clw <;> cases crw <;>
    simp [applyPunch, Prev.side, Engine.statsOf]

theorem applyPunch_total_le (ctx : AcceptCtx) (p : Punch) (e : Engine) :
    (applyPunch ctx p e).1.leftStats.total + (applyPunch ctx p e).1.rightStats.total ≤
      e.leftStats.total + e.rightStats.total + 1 := by
  rcases ctx with ⟨clw, crw, cls, crs⟩
  rcases p with ⟨ps, psp, ppw⟩
  cases ps <;> cases clw <;> cases crw <;> simp [applyPunch] <;> omega

theorem applyPunch_ok_total (ctx : AcceptCtx) (p : Punch) (e : Engine)
    (h : (applyPunch ctx p e).2 = none) :
    ((applyPunch ctx p e).1.statsOf p.side).total = (e.statsOf p.side).total + 1 := by
  rcases ctx with ⟨clw, crw, cls, crs⟩
  rcases p with ⟨ps, psp, ppw⟩
  cases ps <;> cases clw <;> cases crw <;>
    simp_all [applyPunch, Engine.statsOf]

theorem applyPunches_nil (ctx : AcceptCtx) (e : Engine) :
    applyPunches ctx [] e = (e, none) := rfl

theorem applyPunches_single (ctx : AcceptCtx) (p : Punch) (e : Engine) :
    applyPunches ctx [p] e = applyPunch ctx p e := by
  rcases h : applyPunch ctx p e with ⟨e2, _ | err⟩ <;>
    simp [applyPunches, h]

theorem applyPunches_preserve (ctx : AcceptCtx) (l : List Punch) (e : Engine) (s : Side) :
    ((applyPunches ctx l e).1.prev.side s).cooldownUntil = (e.prev.side s).cooldownUntil ∧
    ((applyPunches ctx l e).1.prev.side s).punchDetected = (e.prev.side s).punchDetected ∧
    ((applyPunches ctx l e).1.prev.side s).restExtension = (e.prev.side s).restExtension ∧
    ((applyPunches ctx l e).1.prev.side s).pos = (e.prev.side s).pos ∧
    ((applyPunches ctx l e).1.prev.side s).distToShoulder = (e.prev.side s).distToShoulder ∧
    (applyPunches ctx l e).1.prev.calibrated = e.prev.calibrated ∧
    (applyPunches ctx l e).1.calibrationStatus = e.calibrationStatus ∧
    (applyPunches ctx l e).1.debugOf s = e.debugOf s := by
  induction l generalizing e with
  | nil => exact ⟨rfl, rfl, rfl, rfl, rfl, rfl, rfl, rfl⟩
  | cons p rest ih =>
    rcases hap : applyPunch ctx p e with ⟨e2, err⟩
    have hpres := applyPunch_preserve ctx p e s
    rw [hap] at hpres
    cases err with
    | none =>
      have hstep : applyPunches ctx (p :: rest) e = applyPunches ctx rest e2 := by
        simp [applyPunches, hap]
      rw [hstep]
      obtain ⟨a1, a2, a3, a4, a5, a6, a7, a8⟩ := ih e2
      obtain ⟨b1, b2, b3, b4, b5, b6, b7, b8⟩ := hpres
      exact ⟨a1.trans b1, a2.trans b2, a3.trans b3, a4.trans b4, a5.trans b5,
        a6.trans b6, a7.trans b7, a8.trans b8⟩
    | some err =>
      have hstep : applyPunches ctx (p :: rest) e = (e2, some err) := by
        simp [applyPunches, hap]
      rw [hstep]
      exact hpres

theorem applyPunches_total_le (ctx : AcceptCtx) (l : List Punch) (e : Engine) :
    (applyPunches ctx l e).1.leftStats.total + (applyPunches ctx l e).1.rightStats.total ≤
      e.leftStats.total + e.rightStats.total + l.length := by
  induction l generalizing e with
  | nil => simp [applyPunches]
  | cons p rest ih =>
    rcases hap : applyPunch ctx p e with ⟨e2, err⟩
    have hle := applyPunch_total_le ctx p e
    rw [hap] at hle
    cases err with
    | none =>
      have hstep : applyPunches ctx (p :: rest) e = applyPunches ctx rest e2 := by
        simp [applyPunches, hap]
      rw [hstep]
      calc (applyPunches ctx rest e2).1.leftStats.total + (applyPunches ctx rest e2).1.rightStats.total
          ≤ e2.leftStats.total + e2.rightStats.total + rest.length := ih e2
        _ ≤ e.leftStats.total + e.rightStats.total + (p :: rest).length := by
            simp only [List.length_cons] at *; omega
    | some err =>
      have hstep : applyPunches ctx (p :: rest) e = (e2, some err) := by
        simp [applyPunches, hap]
      rw [hstep]
      simp only [List.length_cons] at *
      omega

theorem applyPunches_no_side (ctx : AcceptCtx) (l : List Punch) (e : Engine) (s : Side)
    (h : ∀ q ∈ l, q.side ≠ s) :
    (applyPunches ctx l e).1.prev.side s = e.prev.side s ∧
    (applyPunches ctx l e).1.statsOf s = e.statsOf s := by
  induction l generalizing e with
  | nil => exact ⟨rfl, rfl⟩
  | cons p rest ih =>
    rcases hap : applyPunch ctx p e with ⟨e2, err⟩
    have hother := applyPunch_other_side ctx p e s (fun hc => h p (by simp) hc.symm)
    rw [hap] at hother
    cases err with
    | none =>
      have hstep : applyPunches ctx (p :: rest) e = applyPunches ctx rest e2 := by
        simp [applyPunches, hap]
      rw [hstep]
      obtain ⟨a, b⟩ := ih e2 (fun q hq => h q (by simp [hq]))
      exact ⟨a.trans hother.1, b.trans hother.2⟩
    | some err =>
      have hstep : applyPunches ctx (p :: rest) e = (e2, some err) := by
        simp [applyPunches, hap]
      rw [hstep]
      exact hother

theorem applyPunches_maxExt_mono (ctx : AcceptCtx) (l : List Punch) (e : Engine) (s : Side)
    (m r : ℝ) (hb : (e.prev.side s).maxExtension = some m)
    (hr : (e.prev.side s).restExtension = some r) :
    ∃ m2, ((applyPunches ctx l e).1.prev.side s).maxExtension = some m2 ∧
      ((applyPunches ctx l e).1.prev.side s).restExtension = some r ∧ m ≤ m2 := by
  induction l generalizing e m with
  | nil => exact ⟨m, hb, hr, le_refl m⟩
  | cons p rest ih =>
    rcases hap : applyPunch ctx p e with ⟨e2, err⟩
    have hmono := applyPunch_maxExt_mono ctx p e s
    have hpres := applyPunch_preserve ctx p e s
    rw [hap] at hmono hpres
    have hr2 : (e2.prev.side s).restExtension = some r := by
      rw [hpres.2.2.1, hr]
    have hmax2 : ∃ m2, (e2.prev.side s).maxExtension = some m2 ∧ m ≤ m2 := by
      rcases hmono with heq | ⟨d, heq⟩
      · exact ⟨m, by rw [heq, hb], le_refl m⟩
      · refine ⟨max ((e.prev.side s).maxExtension.getD 0) d, heq, ?_⟩
        rw [hb]
        exact le_max_left m d |>.trans (by simp)
    obtain ⟨m2, hm2, hle2⟩ := hmax2
    cases err with
    | none =>
      have hstep : applyPunches ctx (p :: rest) e = applyPunches ctx rest e2 := by
        simp [applyPunches, hap]
      rw [hstep]
      obtain ⟨m3, h3, h4, h5⟩ := ih e2 m2 hm2 hr2
      exact ⟨m3, h3, h4, hle2.trans h5⟩
    | some err =>
      have hstep : applyPunches ctx (p :: rest) e = (e2, some err) := by
        simp [applyPunches, hap]
      rw [hstep]
      exact ⟨m2, hm2, hr2, hle2⟩

theorem finishStep_side (now : ℝ) (pp acc : List Punch) (r : Engine × Option JsError) (s : Side) :
    (finishStep now pp acc r).engine.prev.side s = r.1.prev.side s := by
  rcases r with ⟨e2, _ | err⟩ <;> rfl

theorem finishStep_stats (now : ℝ) (pp acc : List Punch) (r : Engine × Option JsError) (s : Side) :
    (finishStep now pp acc r).engine.statsOf s = r.1.statsOf s := by
  rcases r with ⟨e2, _ | err⟩ <;> cases s <;> rfl

theorem finishStep_debug (now : ℝ) (pp acc : List Punch) (r : Engine × Option JsError) (s : Side) :
    (finishStep now pp acc r).engine.debugOf s = r.1.debugOf s := by
  rcases r with ⟨e2, _ | err⟩ <;> cases s <;> rfl

theorem finishStep_status (now : ℝ) (pp acc : List Punch) (r : Engine × Option JsError) :
    (finishStep now pp acc r).engine.calibrationStatus = r.1.calibrationStatus := by
  rcases r with ⟨e2, _ | err⟩ <;> rfl

theorem finishStep_calibrated (now : ℝ) (pp acc : List Punch) (r : Engine × Option JsError) :
    (finishStep now pp acc r).engine.prev.calibrated = r.1.prev.calibrated := by
  rcases r with ⟨e2, _ | err⟩ <;> rfl

theorem finishStep_pp (now : ℝ) (pp acc : List Punch) (r : Engine × Option JsError) :
    (finishStep now pp acc r).potentialPunches = pp ∧
    (finishStep now pp acc r).accepted = acc ∧
    (finishStep now pp acc r).error = r.2 := by
  rcases r with ⟨e2, _ | err⟩ <;> exact ⟨rfl, rfl, rfl⟩

theorem arbitrate_single (p : Punch) : arbitrate [p] = [p] := rfl

theorem arbitrate_pair (a b : Punch) :
    arbitrate [a, b] = [if a.power < b.power then b else a] := by
  simp [arbitrate]

theorem arbitrate_length (l : List Punch) : (arbitrate l).length ≤ 1 := by
  match l with
  | [] => simp [arbitrate]
  | [p] => simp [arbitrate]
  | p :: q :: rest => simp [arbitrate]

theorem reduceBest_mem (l : List Punch) (p : Punch) :
    l.foldl (fun best cur => if best.power < cur.power then cur else best) p ∈ p :: l := by
  induction l generalizing p with
  | nil => simp
  | cons q t ih =>
    simp only [List.foldl_cons]
    have h := ih (if p.power < q.power then q else p)
    split_ifs at h ⊢ with hpq <;> simp [List.mem_cons] at h ⊢ <;> tauto

theorem arbitrate_subset (l : List Punch) (q : Punch) (h : q ∈ arbitrate l) : q ∈ l := by
  match l with
  | [] => simp [arbitrate] at h
  | [p] => simpa [arbitrate] using h
  | p :: b :: rest =>
    simp only [arbitrate, List.mem_singleton] at h
    subst h
    exact reduceBest_mem (b :: rest) p

theorem mem_toList {α : Type} (o : Option α) (a : α) (h : a ∈ o.toList) : o = some a := by
  cases o <;> simp_all

theorem toList_append_pair {α : Type} (o1 o2 : Option α) (a b : α)
    (h : o1.toList ++ o2.toList = [a, b]) : o1 = some a ∧ o2 = some b := by
  cases o1 <;> cases o2 <;> simp_all

theorem statsWith_total (ps : PunchStats) (o : Option (ℝ × ℝ)) :
    (statsWith ps o).total = ps.total := by
  cases o <;> rfl

theorem calibPrev_left (c : Prop) [inst : Decidable c] (t2 : ℝ) (l r : SideState)
    (cal : Bool) (pls prs : Option Pt) :
    (if c then Prev.mk t2 l r true pls prs else Prev.mk t2 l r cal pls prs).left = l := by
  split_ifs <;> rfl

theorem calibPrev_right (c : Prop) [inst : Decidable c] (t2 : ℝ) (l r : SideState)
    (cal : Bool) (pls prs : Option Pt) :
    (if c then Prev.mk t2 l r true pls prs else Prev.mk t2 l r cal pls prs).right = r := by
  split_ifs <;> rfl

/-! ### `engineAfterSides` projections -/

theorem eas_side_left (o1 o2 : SideOutcome) (e : Engine) :
    (engineAfterSides o1 o2 e).prev.side Side.left = o1.state := by
  simp only [engineAfterSides]
  split_ifs <;> rfl

theorem eas_side_right (o1 o2 : SideOutcome) (e : Engine) :
    (engineAfterSides o1 o2 e).prev.side Side.right = o2.state := by
  simp only [engineAfterSides]
  split_ifs <;> rfl

theorem eas_left_stats (o1 o2 : SideOutcome) (e : Engine) :
    (engineAfterSides o1 o2 e).leftStats = statsWith e.leftStats o1.statsUpd := rfl

theorem eas_right_stats (o1 o2 : SideOutcome) (e : Engine) :
    (engineAfterSides o1 o2 e).rightStats = statsWith e.rightStats o2.statsUpd := rfl

theorem eas_debug (o1 o2 : SideOutcome) (e : Engine) :
    (engineAfterSides o1 o2 e).leftDebug = o1.debug ∧
    (engineAfterSides o1 o2 e).rightDebug = o2.debug := ⟨rfl, rfl⟩

theorem eas_calibrated_true (o1 o2 : SideOutcome) (e : Engine)
    (h : e.prev.calibrated = true) :
    (engineAfterSides o1 o2 e).calibrationStatus = e.calibrationStatus ∧
    (engineAfterSides o1 o2 e).prev.calibrated = true := by
  simp [engineAfterSides, h]

/-! ### Step-level lemmas via `mainBody` -/

theorem finishStep_left_stats (now : ℝ) (pp acc : List Punch) (r : Engine × Option JsError) :
    (finishStep now pp acc r).engine.leftStats = r.1.leftStats := by
  rcases r with ⟨e2, _ | err⟩ <;> rfl

theorem finishStep_right_stats (now : ℝ) (pp acc : List Punch) (r : Engine × Option JsError) :
    (finishStep now pp acc r).engine.rightStats = r.1.rightStats := by
  rcases r with ⟨e2, _ | err⟩ <;> rfl

theorem applyPunches_total_le1 (ctx : AcceptCtx) (l : List Punch) (e : Engine)
    (hl : l.length ≤ 1) :
    (applyPunches ctx l e).1.leftStats.total + (applyPunches ctx l e).1.rightStats.total ≤
      e.leftStats.total + e.rightStats.total + 1 :=
  (applyPunches_total_le ctx l e).trans (by omega)

theorem processSide_noHand (now dt norm : ℝ) (ts : Bool) (side : Side)
    (w eb : Option Keypoint) (sh : Keypoint) (st : SideState)
    (h : resolveHand w eb st.pos = none) :
    processSide now dt norm ts side w eb sh st = Except.error JsError.referenceError := by
  simp [processSide, h]

theorem mainBody_err_left (now dt norm : ℝ) (ts : Bool) (lw lel rw rel : Option Keypoint)
    (ls rs : Keypoint) (e : Engine) (err : JsError)
    (h1 : processSide now dt norm ts Side.left lw lel ls e.prev.left = Except.error err) :
    mainBody now dt norm ts lw lel rw rel ls rs e =
      { engine := e, error := some err, potentialPunches := [], accepted := [] } := by
  simp only [mainBody, h1]

theorem mainBody_err_right (now dt norm : ℝ) (ts : Bool) (lw lel rw rel : Option Keypoint)
    (ls rs : Keypoint) (e : Engine) (o1 : SideOutcome) (err : JsError)
    (h1 : processSide now dt norm ts Side.left lw lel ls e.prev.left = Except.ok o1)
    (h2 : processSide now dt norm ts Side.right rw rel rs e.prev.right = Except.error err) :
    mainBody now dt norm ts lw lel rw rel ls rs e =
      { engine := engineAfterLeft o1 e, error := some err
        potentialPunches := [], accepted := [] } := by
  simp only [mainBody, h1, h2]

theorem mainBody_ok (now dt norm : ℝ) (ts : Bool) (lw lel rw rel : Option Keypoint)
    (ls rs : Keypoint) (e : Engine) (o1 o2 : SideOutcome)
    (h1 : processSide now dt norm ts Side.left lw lel ls e.prev.left = Except.ok o1)
    (h2 : processSide now dt norm ts Side.right rw rel rs e.prev.right = Except.ok o2) :
    mainBody now dt norm ts lw lel rw rel ls rs e =
      finishStep now (o1.proposal.toList ++ o2.proposal.toList)
        (arbitrate (o1.proposal.toList ++ o2.proposal.toList))
        (applyPunches ⟨lw, rw, ls, rs⟩ (arbitrate (o1.proposal.toList ++ o2.proposal.toList))
          (engineAfterSides o1 o2 e)) := by
  simp only [mainBody, h1, h2]

theorem mainBody_pp_cases (now dt norm : ℝ) (ts : Bool) (lw lel rw rel : Option Keypoint)
    (ls rs : Keypoint) (e : Engine) :
    (mainBody now dt norm ts lw lel rw rel ls rs e).potentialPunches = [] ∨
    ∃ o1 o2,
      processSide now dt norm ts Side.left lw lel ls e.prev.left = Except.ok o1 ∧
      processSide now dt norm ts Side.right rw rel rs e.prev.right = Except.ok o2 ∧
      (mainBody now dt norm ts lw lel rw rel ls rs e).potentialPunches =
        o1.proposal.toList ++ o2.proposal.toList := by
  rcases hE1 : processSide now dt norm ts Side.left lw lel ls e.prev.left with err1 | o1
  · left
    rw [mainBody_err_left _ _ _ _ _ _ _ _ _ _ _ _ hE1]
  · rcases hE2 : processSide now dt norm ts Side.right rw rel rs e.prev.right with err2 | o2
    · left
      rw [mainBody_err_right _ _ _ _ _ _ _ _ _ _ _ _ _ hE1 hE2]
    · right
      refine ⟨o1, o2, rfl, rfl, ?_⟩
      rw [mainBody_ok _ _ _ _ _ _ _ _ _ _ _ _ _ hE1 hE2, (finishStep_pp _ _ _ _).1]

theorem mbPropEffects (now dt norm : ℝ) (ts : Bool) (lw lel rw rel : Option Keypoint)
    (ls rs : Keypoint) (e : Engine) (s : Side) :
    ∀ p ∈ (mainBody now dt norm ts lw lel rw rel ls rs e).potentialPunches, p.side = s →
      ((mainBody now dt norm ts lw lel rw rel ls rs e).engine.prev.side s).cooldownUntil =
        some (now + 250) ∧
      ((mainBody now dt norm ts lw lel rw rel ls rs e).engine.prev.side s).punchDetected = true := by
  intro p hp hps
  rcases mainBody_pp_cases now dt norm ts lw lel rw rel ls rs e with hpp | ⟨o1, o2, h1, h2, hpp⟩
  · rw [hpp] at hp
    simp at hp
  · rw [hpp] at hp
    rw [mainBody_ok _ _ _ _ _ _ _ _ _ _ _ _ _ h1 h2]
    simp only [finishStep_side, (applyPunches_preserve _ _ _ _).1,
      (applyPunches_preserve _ _ _ _).2.1]
    cases s with
    | left =>
      simp only [eas_side_left]
      rcases List.mem_append.1 hp with hp1 | hp2
      · have hf := processSide_fire_effects _ _ _ _ _ _ _ _ _ _ _ h1 (mem_toList _ _ hp1)
        exact ⟨hf.2.1, hf.2.2.1⟩
      · have hf := processSide_fire_effects _ _ _ _ _ _ _ _ _ _ _ h2 (mem_toList _ _ hp2)
        rw [hf.1] at hps
        simp at hps
    | right =>
      simp only [eas_side_right]
      rcases List.mem_append.1 hp with hp1 | hp2
      · have hf := processSide_fire_effects _ _ _ _ _ _ _ _ _ _ _ h1 (mem_toList _ _ hp1)
        rw [hf.1] at hps
        simp at hps
      · have hf := processSide_fire_effects _ _ _ _ _ _ _ _ _ _ _ h2 (mem_toList _ _ hp2)
        exact ⟨hf.2.1, hf.2.2.1⟩

theorem mbCooldownBlocks (now dt norm : ℝ) (ts : Bool) (lw lel rw rel : Option Keypoint)
    (ls rs : Keypoint) (e : Engine) (s : Side)
    (h : now < (e.prev.side s).cooldownUntil.getD 0) :
    ∀ p ∈ (mainBody now dt norm ts lw lel rw rel ls rs e).potentialPunches, p.side ≠ s := by
  intro p hp hps
  rcases mainBody_pp_cases now dt norm ts lw lel rw rel ls rs e with hpp | ⟨o1, o2, h1, h2, hpp⟩
  · rw [hpp] at hp
    simp at hp
  · rw [hpp] at hp
    cases s with
    | left =>
      have h2c : now < e.prev.left.cooldownUntil.getD 0 := h
      rcases List.mem_append.1 hp with hp1 | hp2
      · rw [processSide_prop_none_of_cooldown _ _ _ _ _ _ _ _ _ _ h1 h2c] at hp1
        simp at hp1
      · have hf := processSide_fire_effects _ _ _ _ _ _ _ _ _ _ _ h2 (mem_toList _ _ hp2)
        rw [hf.1] at hps
        simp at hps
    | right =>
      have h2c : now < e.prev.right.cooldownUntil.getD 0 := h
      rcases List.mem_append.1 hp with hp1 | hp2
      · have hf := processSide_fire_effects _ _ _ _ _ _ _ _ _ _ _ h1 (mem_toList _ _ hp1)
        rw [hf.1] at hps
        simp at hps
      · rw [processSide_prop_none_of_cooldown _ _ _ _ _ _ _ _ _ _ h2 h2c] at hp2
        simp at hp2

theorem mbActiveBlocks (now dt norm : ℝ) (ts : Bool) (lw lel rw rel : Option Keypoint)
    (ls rs : Keypoint) (e : Engine) (s : Side)
    (h : (e.prev.side s).punchDetected = true) :
    ∀ p ∈ (mainBody now dt norm ts lw lel rw rel ls rs e).potentialPunches, p.side ≠ s := by
  intro p hp hps
  rcases mainBody_pp_cases now dt norm ts lw lel rw rel ls rs e with hpp | ⟨o1, o2, h1, h2, hpp⟩
  · rw [hpp] at hp
    simp at hp
  · rw [hpp] at hp
    cases s with
    | left =>
      have h2c : e.prev.left.punchDetected = true := h
      rcases List.mem_append.1 hp with hp1 | hp2
      · rw [processSide_prop_none_of_active _ _ _ _ _ _ _ _ _ _ h1 h2c] at hp1
        simp at hp1
      · have hf := processSide_fire_effects _ _ _ _ _ _ _ _ _ _ _ h2 (mem_toList _ _ hp2)
        rw [hf.1] at hps
        simp at hps
    | right =>
      have h2c : e.prev.right.punchDetected = true := h
      rcases List.mem_append.1 hp with hp1 | hp2
      · have hf := processSide_fire_effects _ _ _ _ _ _ _ _ _ _ _ h1 (mem_toList _ _ hp1)
        rw [hf.1] at hps
        simp at hps
      · rw [processSide_prop_none_of_active _ _ _ _ _ _ _ _ _ _ h2 h2c] at hp2
        simp at hp2

theorem mbStatusPreserved (now dt norm : ℝ) (ts : Bool) (lw lel rw rel : Option Keypoint)
    (ls rs : Keypoint) (e : Engine) (h : e.prev.calibrated = true) :
    (mainBody now dt norm ts lw lel rw rel ls rs e).engine.calibrationStatus =
      e.calibrationStatus ∧
    (mainBody now dt norm ts lw lel rw rel ls rs e).engine.prev.calibrated = true := by
  rcases hE1 : processSide now dt norm ts Side.left lw lel ls e.prev.left with err1 | o1
  · rw [mainBody_err_left _ _ _ _ _ _ _ _ _ _ _ _ hE1]
    exact ⟨rfl, h⟩
  · rcases hE2 : processSide now dt norm ts Side.right rw rel rs e.prev.right with err2 | o2
    · rw [mainBody_err_right _ _ _ _ _ _ _ _ _ _ _ _ _ hE1 hE2]
      exact ⟨rfl, h⟩
    · rw [mainBody_ok _ _ _ _ _ _ _ _ _ _ _ _ _ hE1 hE2]
      simp only [finishStep_status, finishStep_calibrated,
        (applyPunches_preserve _ _ _ Side.left).2.2.2.2.2.1,
        (applyPunches_preserve _ _ _ Side.left).2.2.2.2.2.2.1]
      exact ⟨(eas_calibrated_true _ _ _ h).1, (eas_calibrated_true _ _ _ h).2⟩

theorem mbTotals (now dt norm : ℝ) (ts : Bool) (lw lel rw rel : Option Keypoint)
    (ls rs : Keypoint) (e : Engine) :
    (mainBody now dt norm ts lw lel rw rel ls rs e).engine.leftStats.total +
      (mainBody now dt norm ts lw lel rw rel ls rs e).engine.rightStats.total ≤
      e.leftStats.total + e.rightStats.total + 1 := by
  rcases hE1 : processSide now dt norm ts Side.left lw lel ls e.prev.left with err1 | o1
  · rw [mainBody_err_left _ _ _ _ _ _ _ _ _ _ _ _ hE1]
    exact Nat.le_add_right _ 1
  · rcases hE2 : processSide now dt norm ts Side.right rw rel rs e.prev.right with err2 | o2
    · have hfix := statsWith_total e.leftStats o1.statsUpd
      rw [mainBody_err_right _ _ _ _ _ _ _ _ _ _ _ _ _ hE1 hE2]
      show (statsWith e.leftStats o1.statsUpd).total + e.rightStats.total ≤ _
      omega
    · rw [mainBody_ok _ _ _ _ _ _ _ _ _ _ _ _ _ hE1 hE2]
      simp only [finishStep_left_stats, finishStep_right_stats]
      refine (applyPunches_total_le1 _ _ _ (arbitrate_length _)).trans ?_
      simp [statsWith_total, eas_left_stats, eas_right_stats]

theorem applyPunches_maxExt_bound (ctx : AcceptCtx) (l : List Punch) (e1 : Engine) (s : Side)
    (m r c : ℝ) (hb : (e1.prev.side s).maxExtension = some m)
    (hr : (e1.prev.side s).restExtension = some r) (hbound : r + c ≤ m) :
    ∃ m2 r2, ((applyPunches ctx l e1).1.prev.side s).maxExtension = some m2 ∧
      ((applyPunches ctx l e1).1.prev.side s).restExtension = some r2 ∧ r2 + c ≤ m2 := by
  obtain ⟨m2, h1, h2, h3⟩ := applyPunches_maxExt_mono ctx l e1 s m r hb hr
  exact ⟨m2, r, h1, h2, hbound.trans h3⟩

theorem mbExtInv (now dt norm : ℝ) (ts : Bool) (lw lel rw rel : Option Keypoint)
    (ls rs : Keypoint) (e : Engine) (s : Side) :
    (((mainBody now dt norm ts lw lel rw rel ls rs e).engine.prev.side s).maxExtension =
        (e.prev.side s).maxExtension ∧
      ((mainBody now dt norm ts lw lel rw rel ls rs e).engine.prev.side s).restExtension =
        (e.prev.side s).restExtension) ∨
    ∃ m r, ((mainBody now dt norm ts lw lel rw rel ls rs e).engine.prev.side s).maxExtension = some m ∧
      ((mainBody now dt norm ts lw lel rw rel ls rs e).engine.prev.side s).restExtension = some r ∧
      r + norm * 0.04 ≤ m := by
  rcases hE1 : processSide now dt norm ts Side.left lw lel ls e.prev.left with err1 | o1
  · rw [mainBody_err_left _ _ _ _ _ _ _ _ _ _ _ _ hE1]
    exact Or.inl ⟨rfl, rfl⟩
  rcases hE2 : processSide now dt norm ts Side.right rw rel rs e.prev.right with err2 | o2
  · rw [mainBody_err_right _ _ _ _ _ _ _ _ _ _ _ _ _ hE1 hE2]
    cases s with
    | left =>
      rcases processSide_ext _ _ _ _ _ _ _ _ _ _ hE1 with ⟨hm, hr⟩ | ⟨m, r, hm, hr, hb⟩
      · exact Or.inl ⟨hm, hr⟩
      · exact Or.inr ⟨m, r, hm, hr, hb⟩
    | right => exact Or.inl ⟨rfl, rfl⟩
  rw [mainBody_ok _ _ _ _ _ _ _ _ _ _ _ _ _ hE1 hE2]
  simp only [finishStep_side]
  have hacc : ∀ s2, o1.proposal = none ∧ s2 = Side.left ∨ o2.proposal = none ∧ s2 = Side.right →
      ∀ q ∈ arbitrate (o1.proposal.toList ++ o2.proposal.toList), q.side ≠ s2 := by
    intro s2 hcase q hq
    have hmem := arbitrate_subset _ _ hq
    rcases hcase with ⟨hnone, rfl⟩ | ⟨hnone, rfl⟩
    · rcases List.mem_append.1 hmem with hq1 | hq2
      · rw [mem_toList _ _ hq1] at hnone
        simp at hnone
      · have hf := processSide_fire_effects _ _ _ _ _ _ _ _ _ _ _ hE2 (mem_toList _ _ hq2)
        rw [hf.1]
        simp
    · rcases List.mem_append.1 hmem with hq1 | hq2
      · have hf := processSide_fire_effects _ _ _ _ _ _ _ _ _ _ _ hE1 (mem_toList _ _ hq1)
        rw [hf.1]
        simp
      · rw [mem_toList _ _ hq2] at hnone
        simp at hnone
  cases s with
  | left =>
    rcases Option.eq_none_or_eq_some o1.proposal with hprop | ⟨p, hprop⟩
    · have hpres := applyPunches_no_side ⟨lw, rw, ls, rs⟩
        (arbitrate (o1.proposal.toList ++ o2.proposal.toList))
        (engineAfterSides o1 o2 e) Side.left (hacc Side.left (Or.inl ⟨hprop, rfl⟩))
      rw [hpres.1, eas_side_left]
      rcases processSide_ext _ _ _ _ _ _ _ _ _ _ hE1 with ⟨hm, hr⟩ | ⟨m, r, hm, hr, hb⟩
      · exact Or.inl ⟨hm, hr⟩
      · exact Or.inr ⟨m, r, hm, hr, hb⟩
    · obtain ⟨-, -, -, m, r, hm, hr, hb⟩ := processSide_fire_effects _ _ _ _ _ _ _ _ _ _ _
        hE1 hprop
      have hm1 : ((engineAfterSides o1 o2 e).prev.side Side.left).maxExtension = some m := by
        rw [eas_side_left]
        exact hm
      have hr1 : ((engineAfterSides o1 o2 e).prev.side Side.left).restExtension = some r := by
        rw [eas_side_left]
        exact hr
      exact Or.inr (applyPunches_maxExt_bound _ _ _ Side.left m r (norm * 0.04) hm1 hr1 hb)
  | right =>
    rcases Option.eq_none_or_eq_some o2.proposal with hprop | ⟨p, hprop⟩
    · have hpres := applyPunches_no_side ⟨lw, rw, ls, rs⟩
        (arbitrate (o1.proposal.toList ++ o2.proposal.toList))
        (engineAfterSides o1 o2 e) Side.right (hacc Side.right (Or.inr ⟨hprop, rfl⟩))
      rw [hpres.1, eas_side_right]
      rcases processSide_ext _ _ _ _ _ _ _ _ _ _ hE2 with ⟨hm, hr⟩ | ⟨m, r, hm, hr, hb⟩
      · exact Or.inl ⟨hm, hr⟩
      · exact Or.inr ⟨m, r, hm, hr, hb⟩
    · obtain ⟨-, -, -, m, r, hm, hr, hb⟩ := processSide_fire_effects _ _ _ _ _ _ _ _ _ _ _
        hE2 hprop
      have hm1 : ((engineAfterSides o1 o2 e).prev.side Side.right).maxExtension = some m := by
        rw [eas_side_right]
        exact hm
      have hr1 : ((engineAfterSides o1 o2 e).prev.side Side.right).restExtension = some r := by
        rw [eas_side_right]
        exact hr
      exact Or.inr (applyPunches_maxExt_bound _ _ _ Side.right m r (norm * 0.04) hm1 hr1 hb)

set_option maxHeartbeats 1600000 in
theorem mbBoth (now dt norm : ℝ) (ts : Bool) (lw lel rw rel : Option Keypoint)
    (ls rs : Keypoint) (e : Engine) (pl pr : Punch)
    (hpp : (mainBody now dt norm ts lw lel rw rel ls rs e).potentialPunches = [pl, pr]) :
    pl.side = Side.left ∧ pr.side = Side.right ∧
    (mainBody now dt norm ts lw lel rw rel ls rs e).accepted =
      [if pl.power < pr.power then pr else pl] ∧
    ((mainBody now dt norm ts lw lel rw rel ls rs e).error = none →
      (pl.power < pr.power →
        ((mainBody now dt norm ts lw lel rw rel ls rs e).engine.statsOf Side.right).total =
          (e.statsOf Side.right).total + 1 ∧
        ((mainBody now dt norm ts lw lel rw rel ls rs e).engine.statsOf Side.left).total =
          (e.statsOf Side.left).total) ∧
      (¬pl.power < pr.power →
        ((mainBody now dt norm ts lw lel rw rel ls rs e).engine.statsOf Side.left).total =
          (e.statsOf Side.left).total + 1 ∧
        ((mainBody now dt norm ts lw lel rw rel ls rs e).engine.statsOf Side.right).total =
          (e.statsOf Side.right).total)) := by
  rcases mainBody_pp_cases now dt norm ts lw lel rw rel ls rs e with hpp0 | ⟨o1, o2, h1, h2, hpp0⟩
  · rw [hpp0] at hpp
    simp at hpp
  · rw [hpp0] at hpp
    obtain ⟨hp1, hp2⟩ := toList_append_pair _ _ _ _ hpp
    have hf1 := processSide_fire_effects _ _ _ _ _ _ _ _ _ _ _ h1 hp1
    have hf2 := processSide_fire_effects _ _ _ _ _ _ _ _ _ _ _ h2 hp2
    have hacc : arbitrate (o1.proposal.toList ++ o2.proposal.toList) =
        [if pl.power < pr.power then pr else pl] := by
      rw [hp1, hp2]
      simp only [Option.toList_some, List.cons_append, List.nil_append]
      rw [arbitrate_pair]
    rw [mainBody_ok _ _ _ _ _ _ _ _ _ _ _ _ _ h1 h2]
    refine ⟨hf1.1, hf2.1, ?_, ?_⟩
    · rw [(finishStep_pp _ _ _ _).2.1, hacc]
    · intro herr
      rw [(finishStep_pp _ _ _ _).2.2] at herr
      rw [hacc] at herr
      constructor
      · intro hlt
        rw [if_pos hlt, applyPunches_single] at herr
        have htot := applyPunch_ok_total ⟨lw, rw, ls, rs⟩ pr (engineAfterSides o1 o2 e) herr
        have hoth := applyPunch_other_side ⟨lw, rw, ls, rs⟩ pr (engineAfterSides o1 o2 e)
          Side.left (by rw [hf2.1]; simp)
        have hstats : ∀ s2, (finishStep now (o1.proposal.toList ++ o2.proposal.toList)
            (arbitrate (o1.proposal.toList ++ o2.proposal.toList))
            (applyPunches ⟨lw, rw, ls, rs⟩ (arbitrate (o1.proposal.toList ++ o2.proposal.toList))
              (engineAfterSides o1 o2 e))).engine.statsOf s2 =
            (applyPunch ⟨lw, rw, ls, rs⟩ pr (engineAfterSides o1 o2 e)).1.statsOf s2 := by
          intro s2
          rw [finishStep_stats, hacc, if_pos hlt, applyPunches_single]
        constructor
        · rw [hstats Side.right, ← hf2.1, htot, hf2.1]
          simp [Engine.statsOf, eas_right_stats, statsWith_total]
        · rw [hstats Side.left, hoth.2]
          simp [Engine.statsOf, eas_left_stats, statsWith_total]
      · intro hlt
        rw [if_neg hlt, applyPunches_single] at herr
        have htot := applyPunch_ok_total ⟨lw, rw, ls, rs⟩ pl (engineAfterSides o1 o2 e) herr
        have hoth := applyPunch_other_side ⟨lw, rw, ls, rs⟩ pl (engineAfterSides o1 o2 e)
          Side.right (by rw [hf1.1]; simp)
        have hstats : ∀ s2, (finishStep now (o1.proposal.toList ++ o2.proposal.toList)
            (arbitrate (o1.proposal.toList ++ o2.proposal.toList))
            (applyPunches ⟨lw, rw, ls, rs⟩ (arbitrate (o1.proposal.toList ++ o2.proposal.toList))
              (engineAfterSides o1 o2 e))).engine.statsOf s2 =
            (applyPunch ⟨lw, rw, ls, rs⟩ pl (engineAfterSides o1 o2 e)).1.statsOf s2 := by
          intro s2
          rw [finishStep_stats, hacc, if_neg hlt, applyPunches_single]
        constructor
        · rw [hstats Side.left, ← hf1.1, htot, hf1.1]
          simp [Engine.statsOf, eas_left_stats, statsWith_total]
        · rw [hstats Side.right, hoth.2]
          simp [Engine.statsOf, eas_right_stats, statsWith_total]



theorem mbAccepted (now dt norm : ℝ) (ts : Bool) (lw lel rw rel : Option Keypoint)
    (ls rs : Keypoint) (e : Engine) :
    (mainBody now dt norm ts lw lel rw rel ls rs e).accepted =
      arbitrate ((mainBody now dt norm ts lw lel rw rel ls rs e).potentialPunches) := by
  rcases hE1 : processSide now dt norm ts Side.left lw lel ls e.prev.left with err1 | o1
  · rw [mainBody_err_left _ _ _ _ _ _ _ _ _ _ _ _ hE1]
    rfl
  · rcases hE2 : processSide now dt norm ts Side.right rw rel rs e.prev.right with err2 | o2
    · rw [mainBody_err_right _ _ _ _ _ _ _ _ _ _ _ _ _ hE1 hE2]
      rfl
    · rw [mainBody_ok _ _ _ _ _ _ _ _ _ _ _ _ _ hE1 hE2,
        (finishStep_pp _ _ _ _).2.1, (finishStep_pp _ _ _ _).1]

theorem computePunches_main (e : Engine) (f : Frame) (ls rs : Keypoint)
    (hls : f.ls = some ls) (hrs : f.rs = some rs)
    (hsc : ¬(ls.score.getD 0 < 0.15 ∨ rs.score.getD 0 < 0.15)) :
    computePunches e f =
      mainBody f.now (frameDt e.prev.t f.now) (normOf ls rs) (torsoStableOf e ls rs)
        f.lw f.le f.rw f.re ls rs
        { e with prev := { e.prev with
            prevLeftShoulder := some ⟨ls.x, ls.y⟩
            prevRightShoulder := some ⟨rs.x, rs.y⟩ } } := by
  simp only [computePunches, hls, hrs, if_neg hsc]

theorem cpShape (e : Engine) (f : Frame) :
    ((computePunches e f).potentialPunches = [] ∧
     (computePunches e f).accepted = [] ∧
     (computePunches e f).engine.calibrationStatus = e.calibrationStatus ∧
     (computePunches e f).engine.prev.calibrated = e.prev.calibrated ∧
     (∀ s, (computePunches e f).engine.prev.side s = e.prev.side s)) ∨
    (∃ ls rs, f.ls = some ls ∧ f.rs = some rs ∧
      ¬(ls.score.getD 0 < 0.15 ∨ rs.score.getD 0 < 0.15) ∧
      computePunches e f =
        mainBody f.now (frameDt e.prev.t f.now) (normOf ls rs) (torsoStableOf e ls rs)
          f.lw f.le f.rw f.re ls rs
          { e with prev := { e.prev with
              prevLeftShoulder := some ⟨ls.x, ls.y⟩
              prevRightShoulder := some ⟨rs.x, rs.y⟩ } }) := by
  rcases hls : f.ls with _ | ls
  · refine Or.inl ⟨?_, ?_, ?_, ?_, ?_⟩ <;>
      first
        | (intro s; cases s <;> simp [computePunches, hls, Prev.side])
        | (simp [computePunches, hls])
  · rcases hrs : f.rs with _ | rs
    · refine Or.inl ⟨?_, ?_, ?_, ?_, ?_⟩ <;>
        first
          | (intro s; cases s <;> simp [computePunches, hls, hrs, Prev.side])
          | (simp [computePunches, hls, hrs])
    · by_cases hsc : ls.score.getD 0 < 0.15 ∨ rs.score.getD 0 < 0.15
      · refine Or.inl ⟨?_, ?_, ?_, ?_, ?_⟩ <;>
          first
            | (intro s; cases s <;> simp [computePunches, hls, hrs, hsc, Prev.side])
            | (simp [computePunches, hls, hrs, hsc])
      · exact Or.inr ⟨ls, rs, rfl, rfl, hsc, computePunches_main e f ls rs hls hrs hsc⟩

/-- **C1** (amended): the calibration status can regress between `waiting`
and `collecting`, but once the engine has calibrated (`calibrated = true`,
set together with `complete`), the whole calibration block is skipped, so
the status never changes again: `complete` is terminal. -/
theorem c1_amended (e : Engine) (f : Frame) (h : e.prev.calibrated = true) :
    (computePunches e f).engine.calibrationStatus = e.calibrationStatus ∧
    (computePunches e f).engine.prev.calibrated = true := by
  rcases cpShape e f with ⟨_, _, h3, h4, _⟩ | ⟨ls, rs, hls, hrs, hsc, hmain⟩
  · exact ⟨h3, h4.trans h⟩
  · rw [hmain]
    exact mbStatusPreserved _ _ _ _ _ _ _ _ _ _ _ h

/-- Witness for C1's amended theorem: a calibrated engine keeps its status
across an empty frame. -/
theorem c1_witness :
    (computePunches engCal fEmpty).engine.calibrationStatus = engCal.calibrationStatus ∧
    (computePunches engCal fEmpty).engine.prev.calibrated = true :=
  c1_amended engCal fEmpty rfl

/-- **C3**: per frame at most one strike is accepted; a lone proposal is
accepted as-is; of two simultaneous proposals exactly the higher-power one
is accepted (the first on a tie, matching the source's `reduce`), and both
limbs — the dropped one included — end the frame with their active flags
set. -/
theorem c3_arbitration (e : Engine) (f : Frame) :
    (computePunches e f).accepted.length ≤ 1 ∧
    (∀ p, (computePunches e f).potentialPunches = [p] →
      (computePunches e f).accepted = [p]) ∧
    (∀ pl pr, (computePunches e f).potentialPunches = [pl, pr] →
      (computePunches e f).accepted = [if pl.power < pr.power then pr else pl] ∧
      ((computePunches e f).engine.prev.side Side.left).punchDetected = true ∧
      ((computePunches e f).engine.prev.side Side.right).punchDetected = true) := by
  rcases cpShape e f with ⟨h1, h2, _, _, _⟩ | ⟨ls, rs, hls, hrs, hsc, hmain⟩
  · refine ⟨by rw [h2]; simp, ?_, ?_⟩
    · intro p hp
      rw [h1] at hp
      simp at hp
    · intro pl pr hp
      rw [h1] at hp
      simp at hp
  · rw [hmain]
    refine ⟨?_, ?_, ?_⟩
    · rw [mbAccepted]
      exact arbitrate_length _
    · intro p hp
      rw [mbAccepted, hp]
      rfl
    · intro pl pr hpp
      have hb := mbBoth _ _ _ _ _ _ _ _ _ _ _ pl pr hpp
      have heL := mbPropEffects _ _ _ _ _ _ _ _ _ _ _ Side.left pl
        (by rw [hpp]; simp) hb.1
      have heR := mbPropEffects _ _ _ _ _ _ _ _ _ _ _ Side.right pr
        (by rw [hpp]; simp) hb.2.1
      exact ⟨hb.2.2.1, heL.2, heR.2⟩

/-- **C7**: a proposing limb's state leaves the frame with
`cooldownUntil = now + 250` (and its active flag set), and while the frame
timestamp is still below the stored `cooldownUntil` the limb can propose
nothing at all. -/
theorem c7_cooldown (e : Engine) (f : Frame) (s : Side) :
    (∀ p ∈ (computePunches e f).potentialPunches, p.side = s →
      ((computePunches e f).engine.prev.side s).cooldownUntil = some (f.now + 250) ∧
      ((computePunches e f).engine.prev.side s).punchDetected = true) ∧
    (f.now < (e.prev.side s).cooldownUntil.getD 0 →
      ∀ p ∈ (computePunches e f).potentialPunches, p.side ≠ s) := by
  rcases cpShape e f with ⟨h1, _, _, _, _⟩ | ⟨ls, rs, hls, hrs, hsc, hmain⟩
  · constructor
    · intro p hp
      rw [h1] at hp
      simp at hp
    · intro _ p hp
      rw [h1] at hp
      simp at hp
  · cases s with
    | left =>
      rw [hmain]
      refine ⟨mbPropEffects _ _ _ _ _ _ _ _ _ _ _ Side.left, fun hcd => ?_⟩
      exact mbCooldownBlocks _ _ _ _ _ _ _ _ _ _ _ Side.left hcd
    | right =>
      rw [hmain]
      refine ⟨mbPropEffects _ _ _ _ _ _ _ _ _ _ _ Side.right, fun hcd => ?_⟩
      exact mbCooldownBlocks _ _ _ _ _ _ _ _ _ _ _ Side.right hcd

/-- **C10**: when both limbs propose, the proposal losing the power
arbitration (lower power; the left wins ties) is dropped from `accepted`
and never counted, yet the dropped limb still leaves the frame with
`cooldownUntil = now + 250` and its active flag set, suppressing it for
the next 250 ms — stated for both directions of the comparison. -/
theorem c10_dropped (e : Engine) (f : Frame) (pl pr : Punch)
    (hpp : (computePunches e f).potentialPunches = [pl, pr]) :
    pl.side = Side.left ∧ pr.side = Side.right ∧
    (pl.power < pr.power →
      (computePunches e f).accepted = [pr] ∧
      ((computePunches e f).engine.prev.side Side.left).cooldownUntil =
        some (f.now + 250) ∧
      ((computePunches e f).engine.prev.side Side.left).punchDetected = true ∧
      ((computePunches e f).error = none →
        ((computePunches e f).engine.statsOf Side.left).total =
          (e.statsOf Side.left).total)) ∧
    (¬pl.power < pr.power →
      (computePunches e f).accepted = [pl] ∧
      ((computePunches e f).engine.prev.side Side.right).cooldownUntil =
        some (f.now + 250) ∧
      ((computePunches e f).engine.prev.side Side.right).punchDetected = true ∧
      ((computePunches e f).error = none →
        ((computePunches e f).engine.statsOf Side.right).total =
          (e.statsOf Side.right).total)) := by
  rcases cpShape e f with ⟨h1, _, _, _, _⟩ | ⟨ls, rs, hls, hrs, hsc, hmain⟩
  · rw [h1] at hpp
    simp at hpp
  · rw [hmain] at hpp ⊢
    have hb := mbBoth _ _ _ _ _ _ _ _ _ _ _ pl pr hpp
    have heL := mbPropEffects _ _ _ _ _ _ _ _ _ _ _ Side.left pl
      (by rw [hpp]; simp) hb.1
    have heR := mbPropEffects _ _ _ _ _ _ _ _ _ _ _ Side.right pr
      (by rw [hpp]; simp) hb.2.1
    refine ⟨hb.1, hb.2.1, fun hlt => ?_, fun hlt => ?_⟩
    · exact ⟨by rw [hb.2.2.1, if_pos hlt], heL.1, heL.2,
        fun herr => ((hb.2.2.2 herr).1 hlt).2⟩
    · exact ⟨by rw [hb.2.2.1, if_neg hlt], heR.1, heR.2,
        fun herr => ((hb.2.2.2 herr).2 hlt).2⟩

/-- **C5**: with shoulders on screen, when a limb's hand resolves to
nothing (wrist unusable, no elbow, no stored hand position to fall back
to), the per-side loop's "hand keypoint missing" branch reads the two
block-scoped key constants before their declaration and throws a
`ReferenceError`: the frame aborts with no state change for either limb.
The "hand keypoint missing" diagnostics are never published, no strike is
possible that frame, and the stored distance-to-shoulder keeps its
pre-frame value only because the throw precedes every write of the branch
(left side shown; the left iteration runs first). -/
theorem c5_crash (e : Engine) (f : Frame) (ls rs : Keypoint)
    (hls : f.ls = some ls) (hrs : f.rs = some rs)
    (hsc : ¬(ls.score.getD 0 < 0.15 ∨ rs.score.getD 0 < 0.15))
    (hrh : resolveHand f.lw f.le (e.prev.left.pos) = none) :
    (computePunches e f).error = some JsError.referenceError ∧
    (computePunches e f).potentialPunches = [] ∧
    (computePunches e f).accepted = [] ∧
    (∀ s, (computePunches e f).engine.prev.side s = e.prev.side s) ∧
    (computePunches e f).engine.leftDebug = e.leftDebug ∧
    (computePunches e f).engine.rightDebug = e.rightDebug ∧
    (computePunches e f).engine.calibrationStatus = e.calibrationStatus := by
  rw [computePunches_main e f ls rs hls hrs hsc]
  have h1 : processSide f.now (frameDt e.prev.t f.now) (normOf ls rs) (torsoStableOf e ls rs)
      Side.left f.lw f.le ls ({ e with prev := { e.prev with
        prevLeftShoulder := some ⟨ls.x, ls.y⟩
        prevRightShoulder := some ⟨rs.x, rs.y⟩ } } : Engine).prev.left =
      Except.error JsError.referenceError :=
    processSide_noHand _ _ _ _ _ _ _ _ _ hrh
  rw [mainBody_err_left _ _ _ _ _ _ _ _ _ _ _ _ h1]
  exact ⟨rfl, rfl, rfl, fun s => by cases s <;> rfl, rfl, rfl, rfl⟩

/-- **C6** (amended): on a shoulders-visible frame the per-limb extension
pair either stays exactly what it was (unstable-torso and missing-hand
paths, and the cooldown/active early paths) or satisfies
`restExtension + norm * 0.04 ≤ maxExtension` for the frame's `norm`; the
spec's claim that the bound holds after *every* update path is refuted
separately, since the unchanged pair is not re-clamped against a new  `norm`. -/
theorem c6_amended (e : Engine) (f : Frame) (ls rs : Keypoint) (s : Side)
    (hls : f.ls = some ls) (hrs : f.rs = some rs)
    (hsc : ¬(ls.score.getD 0 < 0.15 ∨ rs.score.getD 0 < 0.15)) :
    (((computePunches e f).engine.prev.side s).maxExtension = (e.prev.side s).maxExtension ∧
      ((computePunches e f).engine.prev.side s).restExtension = (e.prev.side s).restExtension) ∨
    ∃ m r, ((computePunches e f).engine.prev.side s).maxExtension = some m ∧
      ((computePunches e f).engine.prev.side s).restExtension = some r ∧
      r + normOf ls rs * 0.04 ≤ m := by
  rw [computePunches_main e f ls rs hls hrs hsc]
  cases s with
  | left => exact mbExtInv f.now _ _ _ f.lw f.le f.rw f.re ls rs _ Side.left
  | right => exact mbExtInv f.now _ _ _ f.lw f.le f.rw f.re ls rs _ Side.right

/-- **C8**: the percent score is `round(power / max(baseline, 0.001) * 100)`
clamped into `[0, 150]`, hence always within those bounds. -/
theorem c8_percent (power : ℝ) (hist : List ℝ) :
    0 ≤ computePercent power hist ∧ computePercent power hist ≤ 150 ∧
    computePercent power hist =
      max 0 (min 150 ((round (power / computePercentBase power hist * 100) : ℤ) : ℝ)) := by
  refine ⟨le_max_left 0 _, ?_, rfl⟩
  have h : min 150 ((round (power / computePercentBase power hist * 100) : ℤ) : ℝ) ≤ 150 :=
    min_le_left _ _
  simp only [computePercent]
  exact max_le (by norm_num) h

/-- **C9**: persisting the two histories at time `T` and hydrating ten
minutes later restores each side's most recent 50 entries (hence the lists
themselves when they are no longer than 50); hydrating 31 minutes later
discards the record and leaves both buffers empty. -/
theorem c9_roundTrip (T : ℝ) (l r : List ℝ) :
    hydrateHistory (some (saveHistory T l r)) (T + 10 * 60 * 1000) =
      (sliceLast HISTORY_SIZE l, sliceLast HISTORY_SIZE r) ∧
    hydrateHistory (some (saveHistory T l r)) (T + 31 * 60 * 1000) = ([], []) ∧
    (l.length ≤ 50 → sliceLast HISTORY_SIZE l = l) := by
  refine ⟨?_, ?_, fun hl => ?_⟩
  · rw [hydrateHistory, saveHistory]
    norm_num
  · rw [hydrateHistory, saveHistory]
    norm_num
  · rw [sliceLast, HISTORY_SIZE]
    rw [Nat.sub_eq_zero_of_le hl]
    rfl

/-- Witness for C9 at the spec's example history. -/
theorem c9_witness :
    hydrateHistory (some (saveHistory 0 [0.4, 0.6, 0.9] [])) (0 + 10 * 60 * 1000) =
      (sliceLast HISTORY_SIZE [0.4, 0.6, 0.9], sliceLast HISTORY_SIZE []) ∧
    hydrateHistory (some (saveHistory 0 [0.4, 0.6, 0.9] [])) (0 + 31 * 60 * 1000) = ([], []) ∧
    sliceLast HISTORY_SIZE [0.4, 0.6, 0.9] = [0.4, 0.6, 0.9] := by
  have h := c9_roundTrip 0 [0.4, 0.6, 0.9] []
  exact ⟨h.1, h.2.1, h.2.2 (by norm_num)⟩

/-- **C4** (amended): the non-empty baseline is nearest-rank over an
ascending sort of the history with index `Math.floor(0.9*(n-1))` (clamped),
not `round`; with an empty history the baseline falls back to
`max(0.001, power)`. -/
theorem c4_amended (arr : List ℝ) (p : ℝ) (power : ℝ) :
    (arr ≠ [] → ∃ a, List.Sorted (· ≤ ·) a ∧ List.Perm arr a ∧
      percentile arr p =
        a.getD (min ((a.length : ℤ) - 1) (max 0 ⌊p * ((a.length : ℝ) - 1)⌋)).toNat 0) ∧
    computePercentBase power [] = max 0.001 power := by
  constructor
  · intro h
    refine ⟨List.insertionSort (· ≤ ·) arr, List.sorted_insertionSort _ _,
      (List.perm_insertionSort _ _).symm, ?_⟩
    rw [percentile, if_neg (by simpa using h)]
  · rw [computePercentBase, percentile]
    simp [PERCENTILE]

/-- **C4** (counterexample): for the six-entry history `[1..6]` the source
takes index `floor(0.9*5) = 4` (value `5`), while the specified
`round(0.9*5) = 5` would take value `6`. -/
theorem c4_counterexample :
    percentile [1, 2, 3, 4, 5, 6] 0.9 = 5 ∧
    percentileClaim [1, 2, 3, 4, 5, 6] 0.9 = 6 := by
  constructor <;>
    · norm_num [percentile, percentileClaim, List.insertionSort, List.orderedInsert,
        round_eq, List.getD]
      rfl

/-- Witness for C4's amended theorem on a three-entry history. -/
theorem c4_amended_witness :
    (∃ a, List.Sorted (· ≤ ·) a ∧ List.Perm [(1 : ℝ), 2, 3] a ∧
      percentile [(1 : ℝ), 2, 3] 0.9 =
        a.getD (min ((a.length : ℤ) - 1) (max 0 ⌊(0.9 : ℝ) * ((a.length : ℝ) - 1)⌋)).toNat 0) ∧
    computePercentBase 5 [] = max 0.001 5 := by
  have h := c4_amended [(1 : ℝ), 2, 3] 0.9 5
  exact ⟨h.1 (by simp), h.2⟩


/-- Witness for C5 at the concrete no-hand frame from the initial state:
the step errors and the left distance-to-shoulder stays `none`. -/
theorem c5_crash_witness :
    (computePunches engInit fNoHand).error = some JsError.referenceError ∧
    (computePunches engInit fNoHand).engine.prev.left.distToShoulder = none := by
  have h := c5_crash engInit fNoHand ⟨0, 0, some 1⟩ ⟨100, 0, some 1⟩ rfl rfl
    (by norm_num) rfl
  exact ⟨h.1, (congrArg SideState.distToShoulder (h.2.2.2.1 Side.left)).trans rfl⟩

set_option maxHeartbeats 12000000 in
/-- **C1** (counterexample): after frames `fC1a, fC1b` the status is
`collecting`; two more frames widen the shoulder span, shrink the learned
range norms below `0.08`, and the status transitions *back* to `waiting`. -/
theorem c1_counterexample :
    (runFrames engInit [fC1a, fC1b]).calibrationStatus = .collecting ∧
    (runFrames engInit [fC1a, fC1b, fC1c, fC1d]).calibrationStatus = .waiting := by
  norm_num [runFrames, computePunches, mainBody, processSide, mainSide, restUpdate,
    maxExtUpdate, triggerGainOf, resolveHand, wristUsable, arbitrate, applyPunches,
    applyPunch, finishStep, engineAfterSides, statsWith, frameDt, normOf, torsoStableOf,
    shMoveOf, engInit, initialSideState, fC1a, fC1b, fC1c, fC1d, kpAt, distance_sameY,
    sqrtLit100, sqrtLit900, sqrtLit3721, sqrtLit841, sqrtLit2601, shouldersDbg, emptyDebug]

set_option maxHeartbeats 8000000 in
/-- **C6** (counterexample): the settling frame `fC1a` leaves the right limb
with `maxExtension = 34` and `restExtension = 30` under `norm = 100`; the
unstable frame `fC6b` triples the span (`norm = 300`) while leaving both
extensions untouched, so `maxExtension < restExtension + norm*0.04`. -/
theorem c6_counterexample :
    (runFrames engInit [fC1a, fC6b]).prev.right.maxExtension = some 34 ∧
    (runFrames engInit [fC1a, fC6b]).prev.right.restExtension = some 30 ∧
    (34 : ℝ) < 30 + normOf ⟨-200, 0, some 1⟩ ⟨100, 0, some 1⟩ * 0.04 := by
  refine ⟨?_, ?_, ?_⟩ <;>
    norm_num [runFrames, computePunches, mainBody, processSide, mainSide, restUpdate,
      maxExtUpdate, triggerGainOf, resolveHand, wristUsable, arbitrate, applyPunches,
      applyPunch, finishStep, engineAfterSides, statsWith, frameDt, normOf, torsoStableOf,
      shMoveOf, engInit, initialSideState, fC1a, fC6b, kpAt, distance_sameY,
      sqrtLit100, sqrtLit900, shouldersDbg, emptyDebug]

theorem sqrtLit8100 : Real.sqrt ((8100 : ℝ)) = 90 := by
  rw [show (8100 : ℝ) = 90 ^ 2 by norm_num, Real.sqrt_sq (by norm_num)]

theorem sqrtLit10000 : Real.sqrt ((10000 : ℝ)) = 100 := by
  rw [show (10000 : ℝ) = 100 ^ 2 by norm_num, Real.sqrt_sq (by norm_num)]

theorem sqrtLit65025 : Real.sqrt ((65025 : ℝ)) = 255 := by
  rw [show (65025 : ℝ) = 255 ^ 2 by norm_num, Real.sqrt_sq (by norm_num)]

theorem sqrtLit50625 : Real.sqrt ((50625 : ℝ)) = 225 := by
  rw [show (50625 : ℝ) = 225 ^ 2 by norm_num, Real.sqrt_sq (by norm_num)]

set_option maxHeartbeats 12000000 in
/-- **C2**: running `fC2a` (right wrist absent, elbow standing in) and then
`fC2b` (a qualifying elbow strike) makes the accepted-strike block read the
absent right wrist's `x`, throwing a `TypeError`. -/
theorem c2_crash :
    (computePunches (computePunches engInit fC2a).engine fC2b).error =
      some JsError.typeError := by
  norm_num [computePunches, mainBody, processSide, mainSide, restUpdate,
    maxExtUpdate, triggerGainOf, resolveHand, wristUsable, arbitrate, applyPunches,
    applyPunch, finishStep, engineAfterSides, statsWith, frameDt, normOf, torsoStableOf,
    shMoveOf, engInit, initialSideState, fC2a, fC2b, kpAt, distance_sameY,
    sqrtLit100, sqrtLit900, sqrtLit8100, sqrtLit10000, sqrtLit14400, sqrtLit16900,
    sqrtLit65025, sqrtLit50625, shouldersDbg, emptyDebug, percentile, computePercent,
    computePercentBase, PERCENTILE, HISTORY_SIZE, round_eq, List.insertionSort,
    List.orderedInsert, List.getD]

set_option maxHeartbeats 12000000 in
/-- From the warmed-up state `engBoth`, frame `fBoth` makes both limbs
propose: the left with power `27/25`, the right with power `13/10`; the
accept branch then completes without error. -/
theorem stepBoth :
    (computePunches engBoth fBoth).potentialPunches =
      [⟨Side.left, 9/10, 27/25⟩, ⟨Side.right, 1, 13/10⟩] ∧
    (computePunches engBoth fBoth).error = none := by
  constructor <;>
    norm_num [computePunches, mainBody, processSide, mainSide, restUpdate,
      maxExtUpdate, triggerGainOf, resolveHand, wristUsable, arbitrate, applyPunches,
      applyPunch, finishStep, engineAfterSides, statsWith, frameDt, normOf, torsoStableOf,
      shMoveOf, engBoth, sideAt, fBoth, kpAt, distance_sameY, sqrtLit100, sqrtLit900,
      sqrtLit8100, sqrtLit10000, sqrtLit14400, sqrtLit16900, sqrtLit65025, sqrtLit50625,
      emptyDebug, percentile, computePercent, computePercentBase, PERCENTILE, HISTORY_SIZE,
      round_eq, List.insertionSort, List.orderedInsert, List.getD]

/-- Witness for C3: in the both-propose frame the right proposal
(power `13/10`) beats the left (power `27/25`); both limbs end the frame
active. -/
theorem c3_witness :
    (computePunches engBoth fBoth).accepted = [⟨Side.right, 1, 13/10⟩] ∧
    ((computePunches engBoth fBoth).engine.prev.side Side.left).punchDetected = true ∧
    ((computePunches engBoth fBoth).engine.prev.side Side.right).punchDetected = true := by
  have h := (c3_arbitration engBoth fBoth).2.2 ⟨Side.left, 9/10, 27/25⟩
    ⟨Side.right, 1, 13/10⟩ stepBoth.1
  refine ⟨?_, h.2.1, h.2.2⟩
  rw [h.1]
  norm_num

/-- Witness for C6's amended theorem at the settling frame. -/
theorem c6_witness :
    (((computePunches engInit fC1a).engine.prev.side Side.right).maxExtension =
        (engInit.prev.side Side.right).maxExtension ∧
      ((computePunches engInit fC1a).engine.prev.side Side.right).restExtension =
        (engInit.prev.side Side.right).restExtension) ∨
    ∃ m r, ((computePunches engInit fC1a).engine.prev.side Side.right).maxExtension = some m ∧
      ((computePunches engInit fC1a).engine.prev.side Side.right).restExtension = some r ∧
      r + normOf ⟨0, 0, some 1⟩ ⟨100, 0, some 1⟩ * 0.04 ≤ m :=
  c6_amended engInit fC1a ⟨0, 0, some 1⟩ ⟨100, 0, some 1⟩ Side.right rfl rfl (by norm_num)

/-- Witness for C7: the left limb proposed in the both-propose frame, so its
state leaves that frame with `cooldownUntil = now + 250` and the flag set. -/
theorem c7_witness :
    ((computePunches engBoth fBoth).engine.prev.side Side.left).cooldownUntil =
      some (fBoth.now + 250) ∧
    ((computePunches engBoth fBoth).engine.prev.side Side.left).punchDetected = true :=
  (c7_cooldown engBoth fBoth Side.left).1 ⟨Side.left, 9/10, 27/25⟩
    (by rw [stepBoth.1]; simp) rfl

/-- Witness for C10: the dropped left proposal of the both-propose frame is
not counted, yet leaves cooldown and active flag behind. -/
theorem c10_witness :
    (computePunches engBoth fBoth).accepted = [⟨Side.right, 1, 13/10⟩] ∧
    ((computePunches engBoth fBoth).engine.prev.side Side.left).cooldownUntil =
      some (fBoth.now + 250) ∧
    ((computePunches engBoth fBoth).engine.prev.side Side.left).punchDetected = true ∧
    ((computePunches engBoth fBoth).engine.statsOf Side.left).total =
      (engBoth.statsOf Side.left).total := by
  have h := c10_dropped engBoth fBoth ⟨Side.left, 9/10, 27/25⟩ ⟨Side.right, 1, 13/10⟩
    stepBoth.1
  have h2 := h.2.2.1 (by norm_num)
  exact ⟨h2.1, h2.2.1, h2.2.2.1, h2.2.2.2 stepBoth.2⟩

end
